import Mathlib

/- Verification development for the Game-Server session orchestrator
   (src/master.ts).  The orchestrator, its registries and its message handler
   are embedded shallowly; collaborators whose sources are not in the
   repository snapshot (Player, Lobby, Utility) are modelled from the
   specification, each marked by a doc comment.  JavaScript values, loose
   equality and number parsing are modelled over integer-valued numbers,
   which covers every value this program stores or compares. -/

namespace GameServer

/-- JavaScript values that flow through message payloads and the store. -/
inductive JSVal where
  | null
  | undef
  | num (n : Int)
  | str (s : String)
  | bool (b : Bool)
  deriving Repr, DecidableEq

/-- JavaScript truthiness for the modelled value space. -/
def jsTruthy : JSVal → Bool
  | .null => false
  | .undef => false
  | .num n => decide (n ≠ 0)
  | .str s => decide (s ≠ "")
  | .bool b => b

/-- Whitespace characters recognized by the trim model: the ASCII whitespace
this program's inputs can contain. -/
def isWS (c : Char) : Bool :=
  decide (c = ' ') || decide (c = Char.ofNat 9) || decide (c = Char.ofNat 10) ||
    decide (c = Char.ofNat 13)

/-- Trim of a character list: drop leading and trailing whitespace. -/
def jsTrimList (cs : List Char) : List Char :=
  ((cs.dropWhile isWS).reverse.dropWhile isWS).reverse

/-- String.prototype.trim. -/
def jsTrim (s : String) : String := String.mk (jsTrimList s.data)

/-- ASCII lower-casing of one character. -/
def lowerChar (c : Char) : Char :=
  if 'A' ≤ c ∧ c ≤ 'Z' then Char.ofNat (c.toNat + 32) else c

/-- String.prototype.toLowerCase on the character range this program
stores. -/
def jsLower (s : String) : String := String.mk (s.data.map lowerChar)

/-- String.prototype.split at a separator character. -/
def splitOnChar (c : Char) : List Char → List (List Char)
  | [] => [[]]
  | a :: t =>
    if a = c then [] :: splitOnChar c t
    else
      match splitOnChar c t with
      | h :: r => (a :: h) :: r
      | [] => [[a]]

/-- The second field of a split at the pipe character, as the session-expiry
parser reads it; none models the undefined index. -/
def secondField (s : String) : Option String :=
  match splitOnChar '|' s.data with
  | _ :: f :: _ => some (String.mk f)
  | _ => none

/-- Decimal value of a digit character. -/
def digitVal (c : Char) : Nat := c.toNat - 48

/-- Decimal value of a digit list, most significant first. -/
def decValue (cs : List Char) : Nat := cs.foldl (fun a c => a * 10 + digitVal c) 0

/-- Split an optional leading sign from a trimmed character list. -/
def signSplit (t : List Char) : Bool × List Char :=
  match t with
  | c :: r => if c = '-' then (true, r) else if c = '+' then (false, r) else (false, t)
  | [] => (false, t)

/-- JavaScript parseInt on the modelled value space: trim, optional sign,
longest run of leading decimal digits; none models NaN. -/
def jsParseInt (s : String) : Option Int :=
  let core := signSplit (jsTrimList s.data)
  let ds := core.2.takeWhile Char.isDigit
  if ds.isEmpty then none
  else some (if core.1 then -(decValue ds : Int) else (decValue ds : Int))

/-- JavaScript ToNumber restricted to integer string literals: trim, the empty
string converts to 0, a full signed digit run converts to its value, anything
else models NaN.  Fractional, exponent and radix-prefixed literals do not
occur in the values this program compares. -/
def jsToNumberInt (s : String) : Option Int :=
  let t := jsTrimList s.data
  if t.isEmpty then some 0
  else
    let core := signSplit t
    if core.2 ≠ [] ∧ core.2.all Char.isDigit then
      some (if core.1 then -(decValue core.2 : Int) else (decValue core.2 : Int))
    else none

/-- Numeric coercion of a boolean, as used by loose equality. -/
def boolNum (b : Bool) : Int := if b then 1 else 0

/-- JavaScript loose equality on the modelled value space: null and undefined
are mutually equal and equal to nothing else, same-type comparison is strict,
and a number meeting a string compares against ToNumber of the string. -/
def looseEq : JSVal → JSVal → Bool
  | .null, .null => true
  | .null, .undef => true
  | .undef, .null => true
  | .undef, .undef => true
  | .num a, .num b => decide (a = b)
  | .str a, .str b => decide (a = b)
  | .bool a, .bool b => decide (a = b)
  | .num a, .str s => decide (jsToNumberInt s = some a)
  | .str s, .num a => decide (jsToNumberInt s = some a)
  | .bool b, .num a => decide (boolNum b = a)
  | .num a, .bool b => decide (boolNum b = a)
  | .bool b, .str s => decide (jsToNumberInt s = some (boolNum b))
  | .str s, .bool b => decide (jsToNumberInt s = some (boolNum b))
  | _, _ => false

/-- JavaScript ToString of a modelled value, used when a non-string payload
field reaches a string-consuming sink such as the digest function. -/
def jsToStr : JSVal → String
  | .null => "null"
  | .undef => "undefined"
  | .num n => toString n
  | .str s => s
  | .bool b => if b then "true" else "false"

/-- Modelled from the spec: Utility.hash (src/utility.ts is not in the
snapshot) is an opaque digest of its input under a named algorithm; it is
modelled as an injective tagging function, which preserves exactly the
equalities the orchestrator tests. -/
def Utility.hash (s alg : String) : String := alg ++ ":" ++ s

/-- Modelled from the spec: Utility.isValidPassword (src/utility.ts is not in
the snapshot) — alphanumeric, at least 8 characters, at least one special
character. -/
def Utility.isValidPassword (s : String) : Bool :=
  decide (8 ≤ s.length) && s.data.any (fun c => !c.isAlphanum) && s.data.any (fun c => c.isAlphanum)

/-- Modelled from the spec: Utility.isValidEmail (src/utility.ts is not in the
snapshot) — a format predicate: one at-sign separating nonempty parts, with a
dot in the domain part. -/
def Utility.isValidEmail (s : String) : Bool :=
  match splitOnChar '@' s.data with
  | [l, r] => decide (l ≠ []) && decide (r ≠ []) && r.contains '.'
  | _ => false

/-- First-match lookup in an association list, the key equality of a
JavaScript Map and of the key-addressed store. -/
def mapGet {α β : Type} [DecidableEq α] : List (α × β) → α → Option β
  | [], _ => none
  | e :: t, k => if e.1 = k then some e.2 else mapGet t k

/-- Map.delete: drop any binding of the key. -/
def mapDelete {α β : Type} [DecidableEq α] : List (α × β) → α → List (α × β)
  | [], _ => []
  | e :: t, k => if e.1 = k then mapDelete t k else e :: mapDelete t k

/-- Map.set: bind a key to a value, replacing any previous binding. -/
def mapSet {α β : Type} [DecidableEq α] (l : List (α × β)) (k : α) (v : β) : List (α × β) :=
  (k, v) :: mapDelete l k

/-- Update the value bound to a key in place, leaving other bindings alone. -/
def mapModify {α β : Type} [DecidableEq α] (l : List (α × β)) (k : α) (f : β → β) : List (α × β) :=
  l.map (fun e => if e.1 = k then (e.1, f e.2) else e)

/-- Set.add: insert an element if absent. -/
def setAdd {α : Type} [DecidableEq α] (l : List α) (x : α) : List α :=
  if x ∈ l then l else x :: l

/-- Set.delete: remove an element. -/
def setErase {α : Type} [DecidableEq α] : List α → α → List α
  | [], _ => []
  | y :: t, x => if y = x then setErase t x else y :: setErase t x

/-- A per-account document in the identity store, as written by Register and
read by the two login paths; the session field is the token-pipe-expiry
composite, absent until a session is ever persisted. -/
structure UserDoc where
  pass : String
  email : String
  name : String
  isBlocked : Bool
  session : Option String
  deriving Repr, DecidableEq

/-- The identity store at the two paths this program addresses:
users/<emailHashKey> documents and the rotating regAccessCode gate value. -/
structure Store where
  users : List (String × UserDoc)
  regAccessCode : Option Int
  deriving Repr, DecidableEq

/-- Master.dbGet at path users/<k>: the document or null. -/
def usersGet (s : Store) (k : String) : Option UserDoc := mapGet s.users k

/-- Master.dbGet at path regAccessCode, as the JavaScript value the loose
access-code comparison sees: the stored number, or null when absent. -/
def regAccessVal (s : Store) : JSVal :=
  match s.regAccessCode with
  | some n => JSVal.num n
  | none => JSVal.null

/-- Master.dbSet WRITE at users/<k>: full replace of the document. -/
def usersSet (s : Store) (k : String) (d : UserDoc) : Store :=
  { s with users := mapSet s.users k d }

/-- Master.dbSet UPDATE at users/<k> with a session-only partial: merge,
changing only the session field of the existing document. -/
def usersUpdateSession (s : Store) (k : String) (v : String) : Store :=
  { s with users := mapModify s.users k (fun d => { d with session := some v }) }

/-- Master.dbSet WRITE at regAccessCode. -/
def storeSetAccess (s : Store) (c : Int) : Store :=
  { s with regAccessCode := some c }

/-- Master.dbGet on the users path filtered by session equal to the token:
the first matching key and document, in store order, as Object.keys picks. -/
def queryBySession (s : Store) (tok : String) : Option (String × UserDoc) :=
  s.users.find? (fun e => decide (e.2.session = some tok))

/-- One Player object: ephemeral id, display name, persistent directory key
(empty until authenticated), the bound connection (none when released), the
peer-visible status, and whether the object has been torn down for good. -/
structure Player where
  id : Int
  name : String
  dbRef : String
  conn : Option Nat
  status : Nat
  terminated : Bool
  deriving Repr, DecidableEq

/-- An outbound message: Player.send records the type, payload and whether
the terminal flag was passed; omitting the optional flag leaves the message
not terminal. -/
structure OutMsg where
  type : String
  data : JSVal
  terminal : Bool
  deriving Repr, DecidableEq

/-- The payload fields the handler reads from inbound messages.  The queue
field is carried opaquely into postAuth and the lobby. -/
structure MsgData where
  sess : JSVal
  email : JSVal
  pass : JSVal
  name : JSVal
  access : JSVal
  queue : Option Nat
  gameId : JSVal
  plrCount : JSVal
  deriving Repr, DecidableEq

/-- An inbound application message. -/
structure InMsg where
  type : String
  data : MsgData
  deriving Repr, DecidableEq

/-- The orchestrator-owned state: the object heap of Player instances keyed
by object identity, Master.players (active set), Master.stalePlayers,
the lobby finder queue, the game-room groups, the identity store,
Master.pIds, a fresh-object counter, the clock, the outbound trace, and the
trace of matchmaking requests forwarded from login payloads. -/
structure MState where
  heap : List (Nat × Player)
  players : List Nat
  stalePlayers : List (String × Nat)
  finders : List (Nat × JSVal × JSVal)
  games : List (List Nat)
  store : Store
  pIds : Int
  nextObj : Nat
  now : Int
  outbox : List (Nat × OutMsg)
  lobbyForwards : List (Nat × Nat)
  deriving Repr, DecidableEq

/-- Player.send, observed as an append to the outbound trace. -/
def pushOut (st : MState) (pk : Nat) (m : OutMsg) : MState :=
  { st with outbox := st.outbox ++ [(pk, m)] }

/-- Modelled from the spec: Player.switchState with a connection
(src/player.ts is not in the snapshot) swaps the Player onto the supplied
channel and the Player re-enters the active broadcast and status flows, so it
is re-registered in the active set. -/
def switchStateConn (st : MState) (pk : Nat) (c : Option Nat) : MState :=
  { st with heap := mapModify st.heap pk (fun q => { q with conn := c }),
            players := setAdd st.players pk }

/-- Modelled from the spec: Player.switchState with no argument
(src/player.ts is not in the snapshot) releases the Player connection and
invalidates its ephemeral id; it is used on the Player being cannibalized
during a respawn. -/
def switchStateNone (st : MState) (pk : Nat) : MState :=
  { st with heap := mapModify st.heap pk (fun q => { q with conn := none, id := -1 }) }

/-- Modelled from the spec: Player.postAuth (src/player.ts is not in the
snapshot) finalizes authentication — binds the persistent directory key and
the display name, notifies the client of success with the revival flag, and
forwards a pending matchmaking request from the login payload to the Lobby,
observed here as an append to the forwarding trace. -/
def postAuth (st : MState) (pk : Nat) (name ref : String) (queue : Option Nat)
    (isRespawn : Bool) : MState :=
  let st1 := { st with heap := mapModify st.heap pk (fun q => { q with dbRef := ref, name := name }) }
  let st2 := pushOut st1 pk { type := "Auth-Success", data := JSVal.bool isRespawn, terminal := false }
  match queue with
  | some q => { st2 with lobbyForwards := st2.lobbyForwards ++ [(pk, q)] }
  | none => st2

/-- Modelled from the spec: Player.fireDisconnection (src/player.ts is not in
the snapshot).  An authenticated player is moved into the stale registry on a
transport drop; explicit teardown (logout) instead destroys the player and
removes any stale entry for its key; an unauthenticated player is discarded;
a player already torn down is processed idempotently. -/
def fireDisconnection (st : MState) (pk : Nat) (explicit : Bool) : MState :=
  match mapGet st.heap pk with
  | none => st
  | some pl =>
    if pl.terminated then st
    else if explicit then
      { st with players := setErase st.players pk,
                stalePlayers := mapDelete st.stalePlayers pl.dbRef,
                heap := mapModify st.heap pk (fun q => { q with terminated := true, conn := none }) }
    else if pl.dbRef ≠ "" then
      { st with players := setErase st.players pk,
                stalePlayers := mapSet st.stalePlayers pl.dbRef pk,
                heap := mapModify st.heap pk (fun q => { q with conn := none }) }
    else
      { st with players := setErase st.players pk,
                heap := mapModify st.heap pk (fun q => { q with terminated := true, conn := none }) }

/-- Modelled from the spec: the Player constructor run on connection accept
(src/player.ts is not in the snapshot) — the server handler creates a Player
with the next ephemeral id from Master.pIds and the Player registers itself
in the orchestrator active set, unauthenticated. -/
def acceptConnection (st : MState) (sock : Nat) : MState :=
  { st with heap := (st.nextObj,
      { id := st.pIds, name := "", dbRef := "", conn := some sock, status := 0,
        terminated := false : Player }) :: st.heap,
            players := setAdd st.players st.nextObj,
            pIds := st.pIds + 1,
            nextObj := st.nextObj + 1 }

/-- The three-way broadcast selector of Master.broadcast: absent or falsy,
a predicate function of the player, or a single player reference. -/
inductive BCheck where
  | noCheck
  | plr (j : Nat)
  | func (f : Player → Bool)

/-- The per-player proceed test of Master.broadcast: no check sends to all,
a function check sends where it returns true, a player check sends to every
player other than that reference. -/
def proceedCheck (st : MState) (check : BCheck) (k : Nat) : Bool :=
  match check with
  | .noCheck => true
  | .func f =>
    match mapGet st.heap k with
    | some pl => f pl
    | none => false
  | .plr j => decide (k ≠ j)

/-- The sublist of the active set that Master.broadcast delivers to. -/
def broadcastList (st : MState) (check : BCheck) : List Nat :=
  st.players.filter (proceedCheck st check)

/-- Master.broadcast: iterate the active player set and send the typed
message to every player the check accepts. -/
def broadcast (st : MState) (type : String) (data : JSVal) (check : BCheck) : MState :=
  { st with outbox :=
      st.outbox ++ (broadcastList st check).map (fun k => (k, { type := type, data := data, terminal := false : OutMsg })) }

/-- Master.tryRespawn: if the persistent key has a stale entry, delete it,
switch the stale Player onto the new Player socket, finalize its
authentication as a revival carrying the pending queue request, reassign its
ephemeral id to the new connection id, release the new Player connection and
invalidate its id, and report that a respawn occurred. -/
def tryRespawn (st : MState) (pk : Nat) (name eref : String) (queue : Option Nat) :
    Bool × MState :=
  match mapGet st.stalePlayers eref with
  | none => (false, st)
  | some respK =>
    let st1 := { st with stalePlayers := mapDelete st.stalePlayers eref }
    let psock := match mapGet st1.heap pk with | some pl => pl.conn | none => none
    let st2 := switchStateConn st1 respK psock
    let st3 := postAuth st2 respK name eref queue true
    -- the id of the new player is read off its own object, untouched by the
    -- mutations of the stale player that precede the read in the source
    let pid := match mapGet st1.heap pk with | some pl => pl.id | none => (-1 : Int)
    let st4 := { st3 with heap := mapModify st3.heap respK (fun q => { q with id := pid }) }
    let st5 := switchStateNone st4 pk
    let st6 := { st5 with heap := mapModify st5.heap pk (fun q => { q with id := -1 }) }
    (true, st6)

/-- The respawn-or-fresh combinator both login paths use: perform normal
authentication exactly when no respawn occurred. -/
def respawnOrFresh (st : MState) (pk : Nat) (name key : String) (queue : Option Nat) : MState :=
  let r := tryRespawn st pk name key queue
  if r.1 then r.2 else postAuth r.2 pk name key queue false

/-- The session token carried by a login payload: the token path is taken
exactly when the sess field is a truthy string. -/
def sessTaken (v : JSVal) : Option String :=
  match v with
  | .str s => if s = "" then none else some s
  | _ => none

/-- The directory key the password login path derives: the md5 digest of the
lower-cased email when the email field is a string, otherwise the literal
key of the string null. -/
def emKeyOf (email : JSVal) : String :=
  match email with
  | .str e => Utility.hash (jsLower e) "md5"
  | _ => "null"

/-- The embedded-expiry test of the session-token path: the numeric second
half of the token-pipe-expiry composite must parse and lie in the future. -/
def sessActive (doc : UserDoc) (now : Int) : Bool :=
  match doc.session with
  | some s =>
    match secondField s with
    | some f =>
      match jsParseInt f with
      | some e => decide (e > now)
      | none => false
    | none => false
  | none => false

/-- The decision taken by the Login handler, mirroring its branch structure:
the token path when a truthy string token is supplied (query by session,
expiry, blocked), otherwise the password path (document at the email-hash
key, password digest comparison, blocked). -/
inductive LoginOutcome where
  | sessWarn
  | blocked
  | auth (name key : String)
  | wrongPass
  | unregistered
  deriving Repr, DecidableEq

/-- Compute the Login decision from the store, the clock and the payload. -/
def loginOutcome (store : Store) (now : Int) (data : MsgData) : LoginOutcome :=
  match sessTaken data.sess with
  | some s =>
    match queryBySession store s with
    | some (dref, doc) =>
      if sessActive doc now then
        if doc.isBlocked then .blocked
        else .auth doc.name dref
      else .sessWarn
    | none => .sessWarn
  | none =>
    let key := emKeyOf data.email
    match usersGet store key with
    | some doc =>
      if doc.pass = Utility.hash (jsToStr data.pass) "sha" then
        if doc.isBlocked then .blocked else .auth doc.name key
      else .wrongPass
    | none => .unregistered

/-- The decision taken by the Register handler, mirroring its check order:
the loose access-code gate, the presence-and-type check of name, email and
password, the untrimmed name length bounds, the password and email
predicates, then the duplicate check on the key hashed from the trimmed
lower-cased email; success carries the trimmed name, the normalized email
and the directory key. -/
inductive RegOutcome where
  | badAccess
  | malformed
  | shortName
  | longName
  | badPass
  | badEmail
  | dup
  | ok (name email key : String)
  deriving Repr, DecidableEq

/-- Compute the Register decision from the store and the payload. -/
def registerOutcome (store : Store) (data : MsgData) : RegOutcome :=
  if looseEq (regAccessVal store) data.access then
    match data.name, data.email, data.pass with
    | .str nm, .str em, .str pw =>
      if nm = "" ∨ em = "" ∨ pw = "" then .malformed
      else if nm.length < 4 then .shortName
      else if nm.length > 20 then .longName
      else if ¬ Utility.isValidPassword pw then .badPass
      else if ¬ Utility.isValidEmail em then .badEmail
      else
        let key := Utility.hash (jsLower (jsTrim em)) "md5"
        if (usersGet store key).isSome then .dup
        else .ok (jsTrim nm) (jsLower (jsTrim em)) key
    | _, _, _ => .malformed
  else .badAccess

/-- Modelled from the spec: Lobby.addFinder (src/lobby.ts is not in the
snapshot) — enqueue the player into the bucket keyed by game id and party
size unless already queued or mid-game; when the bucket reaches the party
size, release the earliest-queued party-size players as a game group.
Returns whether the enqueue succeeded together with the new finder queue and
game groups. -/
def Lobby.addFinder (st : MState) (pk : Nat) (gameId plrCount : JSVal) :
    Bool × List (Nat × JSVal × JSVal) × List (List Nat) :=
  if st.finders.any (fun e => decide (e.1 = pk)) || st.games.any (fun g => g.contains pk) then
    (false, st.finders, st.games)
  else
    let fs := st.finders ++ [(pk, gameId, plrCount)]
    let n : Int := match plrCount with | .num m => m | _ => 0
    let bucket := fs.filter (fun e => decide (e.2.1 = gameId) && decide (e.2.2 = plrCount))
    if 0 < n ∧ n.toNat ≤ bucket.length then
      let group := (bucket.take n.toNat).map Prod.fst
      (true, fs.filter (fun e => decide (e.1 ∉ group)), st.games ++ [group])
    else (true, fs, st.games)

/-- Modelled from the spec: Lobby.removeFinder (src/lobby.ts is not in the
snapshot) — remove the player from whichever bucket holds it, a no-op when
not queued. -/
def Lobby.removeFinder (st : MState) (pk : Nat) : MState :=
  { st with finders := st.finders.filter (fun e => decide (e.1 ≠ pk)) }

/-- Master.handleMSG: dispatch one inbound message by its type.  The ncode
argument is the oracle for the fresh random draw Master.randomizeAccess makes
when a registration succeeds. -/
def handleMSG (st : MState) (pk : Nat) (msg : InMsg) (ncode : Int) : MState :=
  let data := msg.data
  if msg.type = "Login" then
    match loginOutcome st.store st.now data with
    | .sessWarn => pushOut st pk { type := "Warn", data := JSVal.str "Session expired! login again", terminal := true }
    | .blocked => pushOut st pk { type := "Warn", data := JSVal.str "Your are blocked by admin", terminal := true }
    | .auth name key => respawnOrFresh st pk name key data.queue
    | .wrongPass => pushOut st pk { type := "Error", data := JSVal.str "Oh! It's wrong login password.", terminal := true }
    | .unregistered => pushOut st pk { type := "Error", data := JSVal.str "Please register first to continue", terminal := true }
  else if msg.type = "Register" then
    match registerOutcome st.store data with
    | .badAccess => pushOut st pk { type := "Error", data := JSVal.str "Access code is invalid!", terminal := true }
    | .malformed => pushOut st pk { type := "Error", data := JSVal.str "Invalid or Malformed request.", terminal := true }
    | .shortName => pushOut st pk { type := "Error", data := JSVal.str "Name is too short, it should be at least 4 characters long.", terminal := true }
    | .longName => pushOut st pk { type := "Error", data := JSVal.str "Name is too long, it must not exceed 20 characters.", terminal := true }
    | .badPass => pushOut st pk { type := "Error", data := JSVal.str "Password should be alphanumeric, with at least 8 characters, including special characters.", terminal := true }
    | .badEmail => pushOut st pk { type := "Error", data := JSVal.str "This email doesn't looks like a valid one, try again.", terminal := true }
    | .dup => pushOut st pk { type := "Error", data := JSVal.str "User already exists! Please login to continue.", terminal := true }
    | .ok name email key =>
      let doc : UserDoc :=
        { pass := Utility.hash (jsToStr data.pass) "sha", email := email, name := name,
          isBlocked := false, session := none }
      let st1 := { st with store := usersSet st.store key doc }
      let st2 := { st1 with store := storeSetAccess st1.store ncode }
      postAuth st2 pk name key none false
  else if msg.type = "Logout" then
    match mapGet st.heap pk with
    | some pl =>
      let st1 := { st with store := usersUpdateSession st.store pl.dbRef "null|0" }
      fireDisconnection st1 pk true
    | none => st
  else if msg.type = "Search" then
    let r := Lobby.addFinder st pk data.gameId data.plrCount
    let st1 := { st with finders := r.2.1, games := r.2.2 }
    if r.1 then pushOut st1 pk { type := "Goto-Lobby", data := JSVal.undef, terminal := false }
    else pushOut st1 pk { type := "Lobby-Cancel", data := JSVal.undef, terminal := false }
  else if msg.type = "Cancel-Search" then
    let st1 := pushOut st pk { type := "Search-Cancelled", data := JSVal.undef, terminal := false }
    Lobby.removeFinder st1 pk
  else
    pushOut st pk { type := "Error", data := JSVal.str "Invalid request!", terminal := false }

/-- The set of draws Master.randomizeAccess can produce: parseInt of
Math.random times 899999 plus 100000 truncates to an integer in
100000..999998, always six digits. -/
def validDraw (c : Int) : Prop := 100000 ≤ c ∧ c ≤ 999998

/-- The persistent key a message freshly binds through postAuth outside the
respawn path, used to state the account-uniqueness side condition: the key
of a successful non-respawn login authentication, or of a successful
registration. -/
def freshKeyOf (st : MState) (m : InMsg) : Option String :=
  if m.type = "Login" then
    match loginOutcome st.store st.now m.data with
    | .auth _ key => if (mapGet st.stalePlayers key).isSome then none else some key
    | _ => none
  else if m.type = "Register" then
    match registerOutcome st.store m.data with
    | .ok _ _ key => some key
    | _ => none
  else none

/-- The orchestrator-level events: a new connection accepted, one inbound
message handled to completion, and a transport-level connection drop. -/
inductive Op where
  | connect (sock : Nat)
  | message (pk : Nat) (m : InMsg) (ncode : Int)
  | dropConn (pk : Nat)

/-- One completed orchestrator operation. -/
def step (st : MState) : Op → MState
  | .connect sock => acceptConnection st sock
  | .message pk m ncode => handleMSG st pk m ncode
  | .dropConn pk => fireDisconnection st pk false

/-- Object identities currently held by the stale registry. -/
def staleSndOf (S : List (String × Nat)) : List Nat := S.map Prod.snd

/-- Wellformedness of one stale-registry entry over a heap and an active
set: the registered object exists, carries exactly the entry key as its
persistent key, is nonempty-keyed, is not torn down, and is not active. -/
def staleEntryOK (H : List (Nat × Player)) (P : List Nat) (e : String × Nat) : Prop :=
  ∃ pl, mapGet H e.2 = some pl ∧ pl.dbRef = e.1 ∧ e.1 ≠ "" ∧ pl.terminated = false ∧ e.2 ∉ P

/-- The registry invariant of the orchestrator: every stale entry is
wellformed, stale keys are unique, every live authenticated player is active
or stale, live players bind pairwise distinct nonempty persistent keys, heap
identities are unique, and all heap identities are below the fresh
counter. -/
def InvOn (H : List (Nat × Player)) (P : List Nat) (S : List (String × Nat)) (n : Nat) : Prop :=
  (∀ e ∈ S, staleEntryOK H P e) ∧
  (S.map Prod.fst).Nodup ∧
  (∀ e ∈ H, e.2.dbRef ≠ "" → e.2.terminated = false → e.1 ∈ P ∨ e.1 ∈ staleSndOf S) ∧
  (∀ e ∈ H, ∀ e2 ∈ H, e.1 ≠ e2.1 → e.2.terminated = false → e2.2.terminated = false →
    e.2.dbRef ≠ "" → e.2.dbRef ≠ e2.2.dbRef) ∧
  (H.map Prod.fst).Nodup ∧
  (∀ e ∈ H, e.1 < n)

/-- The registry invariant, read off an orchestrator state. -/
def Inv (st : MState) : Prop := InvOn st.heap st.players st.stalePlayers st.nextObj

/-- The property claimed invariant: every live player with a nonempty
persistent key is in exactly one of the active set and the stale registry. -/
def exactlyOneOn (H : List (Nat × Player)) (P : List Nat) (S : List (String × Nat)) : Prop :=
  ∀ e ∈ H, e.2.dbRef ≠ "" → e.2.terminated = false →
    ((e.1 ∈ P ∧ e.1 ∉ staleSndOf S) ∨ (e.1 ∉ P ∧ e.1 ∈ staleSndOf S))

/-- The exactly-one property, read off an orchestrator state. -/
def exactlyOne (st : MState) : Prop := exactlyOneOn st.heap st.players st.stalePlayers

/-- Account uniqueness for a fresh bind: no live player other than the one
being authenticated already holds the key. -/
def freshOk (st : MState) (pk : Nat) (k : String) : Prop :=
  ∀ e ∈ st.heap, e.1 ≠ pk → e.2.terminated = false → e.2.dbRef ≠ k

/-- The side condition of a message operation on its freshly bound key, if
any: a nonempty fresh bind must not collide with another live player. -/
def bindOk (st : MState) (pk : Nat) : Option String → Prop
  | some kk => kk ≠ "" → freshOk st pk kk
  | none => True

/-- Wellformedness of an operation: messages and the keys they freshly bind
come from a currently active connection that is not stealing a key already
held by a different live player (the double-login precondition). -/
def stepOk (st : MState) : Op → Prop
  | .connect _ => True
  | .message pk m _ => pk ∈ st.players ∧ bindOk st pk (freshKeyOf st m)
  | .dropConn _ => True

instance (H : List (Nat × Player)) (P : List Nat) (e : String × Nat) :
    Decidable (staleEntryOK H P e) :=
  match h : mapGet H e.2 with
  | some pl =>
    decidable_of_iff (pl.dbRef = e.1 ∧ e.1 ≠ "" ∧ pl.terminated = false ∧ e.2 ∉ P)
      (by
        constructor
        · intro hc
          exact ⟨pl, h, hc⟩
        · rintro ⟨pl2, h2, hc⟩
          rw [h] at h2
          cases h2
          exact hc)
  | none =>
    isFalse (by
      rintro ⟨pl2, h2, _⟩
      rw [h] at h2
      cases h2)

instance (H : List (Nat × Player)) (P : List Nat) (S : List (String × Nat)) (n : Nat) :
    Decidable (InvOn H P S n) := by
  unfold InvOn; infer_instance

instance (st : MState) : Decidable (Inv st) := by
  unfold Inv; infer_instance

instance (H : List (Nat × Player)) (P : List Nat) (S : List (String × Nat)) :
    Decidable (exactlyOneOn H P S) := by
  unfold exactlyOneOn; infer_instance

instance (st : MState) : Decidable (exactlyOne st) := by
  unfold exactlyOne; infer_instance

instance (st : MState) (pk : Nat) (k : String) : Decidable (freshOk st pk k) := by
  unfold freshOk; infer_instance

instance (st : MState) (pk : Nat) (o : Option String) : Decidable (bindOk st pk o) := by
  rcases o with _ | kk
  · exact inferInstanceAs (Decidable True)
  · exact inferInstanceAs (Decidable (_ → _))

instance (st : MState) (op : Op) : Decidable (stepOk st op) := by
  rcases op with sock | ⟨pk, m, ncode⟩ | pk
  · exact inferInstanceAs (Decidable True)
  · exact inferInstanceAs (Decidable (_ ∧ _))
  · exact inferInstanceAs (Decidable True)

/-- Run a sequence of orchestrator operations. -/
def runOps (st : MState) (ops : List Op) : MState := ops.foldl step st

/-- A registered account document used by the concrete scenarios. -/
def exDoc : UserDoc :=
  { pass := Utility.hash "pw" "sha", email := "a@b.c", name := "alice",
    isBlocked := false, session := none }

/-- The directory key of the concrete account. -/
def exKey : String := Utility.hash "a@b.c" "md5"

/-- A store holding the concrete account and a live access code. -/
def exStore : Store := { users := [(exKey, exDoc)], regAccessCode := some 111111 }

/-- The empty orchestrator state over the concrete store. -/
def st0 : MState :=
  { heap := [], players := [], stalePlayers := [], finders := [], games := [],
    store := exStore, pIds := 0, nextObj := 0, now := 0, outbox := [], lobbyForwards := [] }

/-- An all-absent payload to fill unused fields. -/
def blankData : MsgData :=
  { sess := JSVal.undef, email := JSVal.undef, pass := JSVal.undef, name := JSVal.undef,
    access := JSVal.undef, queue := none, gameId := JSVal.undef, plrCount := JSVal.undef }

/-- A password login for the concrete account. -/
def loginMsg : InMsg :=
  { type := "Login",
    data := { blankData with email := JSVal.str "a@b.c", pass := JSVal.str "pw" } }

/-- The double-login trace behind the C1 counterexample: two connections
authenticate the same account by password, then both drop. -/
def c1Trace : List Op :=
  [Op.connect 10, Op.connect 11, Op.message 0 loginMsg 0, Op.message 1 loginMsg 0,
   Op.dropConn 0, Op.dropConn 1]

/-- The state after the double-login trace. -/
def c1Final : MState := runOps st0 c1Trace

/-- A stale authenticated player bound to the concrete account. -/
def stalePl : Player :=
  { id := 5, name := "alice", dbRef := exKey, conn := none, status := 0, terminated := false }

/-- A freshly connected unauthenticated player. -/
def freshPl : Player :=
  { id := 7, name := "", dbRef := "", conn := some 42, status := 0, terminated := false }

/-- A state with one stale player for the concrete account and one fresh
connection, as a respawn scenario starts. -/
def stC2 : MState :=
  { st0 with heap := [(3, stalePl), (4, freshPl)], players := [4],
             stalePlayers := [(exKey, 3)], nextObj := 5 }

/-- An active authenticated player bound to the concrete account. -/
def authedPl : Player :=
  { id := 0, name := "alice", dbRef := exKey, conn := some 10, status := 0, terminated := false }

/-- A state with the concrete account logged in, as a logout starts. -/
def stC9 : MState := { st0 with heap := [(0, authedPl)], players := [0], nextObj := 1 }

/-- A store with no document at the access-code path. -/
def noCodeStore : Store := { users := [], regAccessCode := none }

/-- A state over the code-less store. -/
def stNoCode : MState := { st0 with store := noCodeStore }

/-- A valid registration message presenting the live access code. -/
def c4Msg : InMsg :=
  { type := "Register",
    data := { blankData with access := JSVal.num 111111, name := JSVal.str "Bobby",
                             email := JSVal.str " New@Mail.com ",
                             pass := JSVal.str "abcd#efgh" } }

/-- The state after connecting and registering, with the fresh random draw
happening to repeat the consumed code 111111. -/
def c4St1 : MState := runOps st0 [Op.connect 10, Op.message 0 c4Msg 111111]

/-- A second registration presenting the just-consumed code for another
account. -/
def c4Msg2 : InMsg :=
  { type := "Register",
    data := { blankData with access := JSVal.num 111111, name := JSVal.str "Carol",
                             email := JSVal.str "other@mail.com",
                             pass := JSVal.str "abcd#efgh" } }

/-- The state after the second registration that reuses the consumed code. -/
def c4St2 : MState := runOps c4St1 [Op.message 0 c4Msg2 222222]

/-- A registration whose name passes the untrimmed length gate but trims to a
single character. -/
def c5Msg : InMsg :=
  { type := "Register",
    data := { blankData with access := JSVal.num 111111, name := JSVal.str "  a ",
                             email := JSVal.str "third@mail.com",
                             pass := JSVal.str "abcd#efgh" } }

/-- The state after the padded-name registration is accepted. -/
def c5Final : MState := runOps st0 [Op.connect 10, Op.message 0 c5Msg 222222]

/-- A message of a type the dispatcher does not recognize. -/
def c8Msg : InMsg := { type := "Hacked", data := blankData }

/-- A registration payload whose name is two characters long. -/
def c5ShortData : MsgData :=
  { blankData with access := JSVal.num 111111, name := JSVal.str "ab",
                   email := JSVal.str "ok@mail.com", pass := JSVal.str "abcd#efgh" }

/-- A login payload carrying a session token whose embedded expiry lies in
the past. -/
def tokData : MsgData := { blankData with sess := JSVal.str "tok|99" }

/-- A password login payload with the wrong password for the concrete
account. -/
def wpData : MsgData :=
  { blankData with email := JSVal.str "a@b.c", pass := JSVal.str "wrong" }

/-- A registration payload with null access and name fields, for the missing
access-code scenario. -/
def c10Data : MsgData := { blankData with access := JSVal.null, name := JSVal.null }

/-- A registration payload presenting the access code as a numeric string. -/
def c10bData : MsgData := { blankData with access := JSVal.str "111111" }

/-- The state after the unrecognized message is handled. -/
def c8Final : MState := runOps st0 [Op.connect 10, Op.message 0 c8Msg 0]

/-- The value transformation a successful respawn applies to the stale
player: the new connection socket, the persistent key and name passed to
postAuth, and the new connection ephemeral id. -/
def respawnFix (st : MState) (pk : Nat) (name eref : String) (q : Player) : Player :=
  { q with conn := (match mapGet st.heap pk with | some pl => pl.conn | none => none),
           dbRef := eref, name := name,
           id := (match mapGet st.heap pk with | some pl => pl.id | none => (-1 : Int)) }

/-- The value transformation a successful respawn applies to the discarded
new player: connection released, ephemeral id invalidated. -/
def discardFix (q : Player) : Player := { q with conn := none, id := -1 }

theorem mapGet_eq_some_mem {α β : Type} [DecidableEq α] {l : List (α × β)} {k : α} {v : β}
    (h : mapGet l k = some v) : (k, v) ∈ l := by
  induction l with
  | nil => simp [mapGet] at h
  | cons e t ih =>
    rw [mapGet] at h
    by_cases he : e.1 = k
    · rw [if_pos he] at h
      have hv : e.2 = v := Option.some.inj h
      have : e = (k, v) := by
        cases e
        simp only at he hv
        rw [he, hv]
      rw [show (k, v) = e from this.symm]
      exact List.mem_cons_self e t
    · rw [if_neg he] at h
      exact List.mem_cons_of_mem e (ih h)

theorem mapGet_of_mem_nodup {α β : Type} [DecidableEq α] {l : List (α × β)} {k : α} {v : β}
    (hn : (l.map Prod.fst).Nodup) (hm : (k, v) ∈ l) : mapGet l k = some v := by
  induction l with
  | nil => simp at hm
  | cons e t ih =>
    rw [List.map_cons, List.nodup_cons] at hn
    rcases List.mem_cons.mp hm with heq | hmt
    · rw [mapGet, ← heq]
      simp
    · rw [mapGet]
      have hk : e.1 ≠ k := by
        intro hk
        exact hn.1 (hk ▸ List.mem_map_of_mem Prod.fst hmt)
      rw [if_neg hk]
      exact ih hn.2 hmt

theorem mapGet_mapDelete_self {α β : Type} [DecidableEq α] (l : List (α × β)) (k : α) :
    mapGet (mapDelete l k) k = none := by
  induction l with
  | nil => rfl
  | cons e t ih =>
    by_cases he : e.1 = k
    · rw [mapDelete, if_pos he]
      exact ih
    · rw [mapDelete, if_neg he, mapGet, if_neg he]
      exact ih

theorem mapGet_mapDelete_ne {α β : Type} [DecidableEq α] (l : List (α × β)) (k k' : α)
    (h : k' ≠ k) : mapGet (mapDelete l k) k' = mapGet l k' := by
  induction l with
  | nil => rfl
  | cons e t ih =>
    by_cases he : e.1 = k
    · have hek : e.1 ≠ k' := by
        rw [he]
        exact Ne.symm h
      rw [mapDelete, if_pos he, mapGet, if_neg hek]
      exact ih
    · by_cases he' : e.1 = k'
      · rw [mapDelete, if_neg he, mapGet, if_pos he', mapGet, if_pos he']
      · rw [mapDelete, if_neg he, mapGet, if_neg he', mapGet, if_neg he']
        exact ih

theorem mapGet_mapSet_self {α β : Type} [DecidableEq α] (l : List (α × β)) (k : α) (v : β) :
    mapGet (mapSet l k v) k = some v := by
  rw [mapSet, mapGet, if_pos rfl]

theorem mapGet_mapSet_ne {α β : Type} [DecidableEq α] (l : List (α × β)) (k k' : α) (v : β)
    (h : k' ≠ k) : mapGet (mapSet l k v) k' = mapGet l k' := by
  rw [mapSet, mapGet, if_neg (Ne.symm h)]
  exact mapGet_mapDelete_ne l k k' h

theorem mem_mapDelete {α β : Type} [DecidableEq α] {l : List (α × β)} {k : α}
    {e' : α × β} : e' ∈ mapDelete l k ↔ e' ∈ l ∧ e'.1 ≠ k := by
  induction l with
  | nil => simp [mapDelete]
  | cons e t ih =>
    by_cases he : e.1 = k
    · rw [mapDelete, if_pos he, ih]
      constructor
      · rintro ⟨h1, h2⟩
        exact ⟨List.mem_cons_of_mem e h1, h2⟩
      · rintro ⟨h1, h2⟩
        rcases List.mem_cons.mp h1 with rfl | h1
        · exact absurd he h2
        · exact ⟨h1, h2⟩
    · rw [mapDelete, if_neg he]
      constructor
      · intro hm
        rcases List.mem_cons.mp hm with rfl | hm
        · exact ⟨List.mem_cons_self _ _, he⟩
        · have := ih.mp hm
          exact ⟨List.mem_cons_of_mem _ this.1, this.2⟩
      · rintro ⟨h1, h2⟩
        rcases List.mem_cons.mp h1 with rfl | h1
        · exact List.mem_cons_self _ _
        · exact List.mem_cons_of_mem _ (ih.mpr ⟨h1, h2⟩)

theorem mem_mapSet {α β : Type} [DecidableEq α] {l : List (α × β)} {k : α} {v : β}
    {e' : α × β} : e' ∈ mapSet l k v ↔ e' = (k, v) ∨ (e' ∈ l ∧ e'.1 ≠ k) := by
  rw [mapSet, List.mem_cons, mem_mapDelete]

theorem mapDelete_sublist {α β : Type} [DecidableEq α] (l : List (α × β)) (k : α) :
    List.Sublist (mapDelete l k) l := by
  induction l with
  | nil => simp [mapDelete]
  | cons e t ih =>
    by_cases he : e.1 = k
    · rw [mapDelete, if_pos he]
      exact ih.cons e
    · rw [mapDelete, if_neg he]
      exact ih.cons₂ e

theorem nodup_fst_mapDelete {α β : Type} [DecidableEq α] {l : List (α × β)} {k : α}
    (h : (l.map Prod.fst).Nodup) : ((mapDelete l k).map Prod.fst).Nodup :=
  h.sublist (List.Sublist.map Prod.fst (mapDelete_sublist l k))

theorem nodup_fst_mapSet {α β : Type} [DecidableEq α] {l : List (α × β)} {k : α} {v : β}
    (h : (l.map Prod.fst).Nodup) : ((mapSet l k v).map Prod.fst).Nodup := by
  rw [mapSet, List.map_cons, List.nodup_cons]
  refine ⟨?_, nodup_fst_mapDelete h⟩
  intro hk
  rcases List.mem_map.mp hk with ⟨e, he, hek⟩
  exact (mem_mapDelete.mp he).2 hek

theorem mapGet_mapModify_self {α β : Type} [DecidableEq α] (l : List (α × β)) (k : α)
    (f : β → β) : mapGet (mapModify l k f) k = (mapGet l k).map f := by
  induction l with
  | nil => rfl
  | cons e t ih =>
    by_cases he : e.1 = k
    · simp [mapModify, mapGet, he]
    · simpa [mapModify, mapGet, he] using ih

theorem mapGet_mapModify_ne {α β : Type} [DecidableEq α] (l : List (α × β)) (k k' : α)
    (f : β → β) (h : k' ≠ k) : mapGet (mapModify l k f) k' = mapGet l k' := by
  induction l with
  | nil => rfl
  | cons e t ih =>
    by_cases he : e.1 = k
    · have hek : e.1 ≠ k' := by
        rw [he]
        exact Ne.symm h
      rw [mapModify, List.map_cons, if_pos he, mapGet]
      rw [show ((e.1, f e.2) : α × β).1 = e.1 from rfl, if_neg hek, mapGet, if_neg hek]
      exact ih
    · by_cases he' : e.1 = k'
      · rw [mapModify, List.map_cons, if_neg he, mapGet, if_pos he', mapGet, if_pos he']
      · rw [mapModify, List.map_cons, if_neg he, mapGet, if_neg he', mapGet, if_neg he']
        exact ih

theorem mem_mapModify {α β : Type} [DecidableEq α] {l : List (α × β)} {k : α} {f : β → β}
    {e' : α × β} :
    e' ∈ mapModify l k f ↔ ∃ e ∈ l, e' = if e.1 = k then (e.1, f e.2) else e := by
  simp only [mapModify, List.mem_map]
  constructor
  · rintro ⟨e, he, rfl⟩
    exact ⟨e, he, rfl⟩
  · rintro ⟨e, he, rfl⟩
    exact ⟨e, he, rfl⟩

theorem map_fst_mapModify {α β : Type} [DecidableEq α] (l : List (α × β)) (k : α)
    (f : β → β) : (mapModify l k f).map Prod.fst = l.map Prod.fst := by
  induction l with
  | nil => rfl
  | cons e t ih =>
    rw [mapModify, List.map_cons] at *
    by_cases he : e.1 = k
    · rw [if_pos he, List.map_cons, List.map_cons]
      rw [show ((e.1, f e.2) : α × β).1 = e.1 from rfl]
      exact congrArg (List.cons e.1) ih
    · rw [if_neg he, List.map_cons, List.map_cons]
      exact congrArg (List.cons e.1) ih

theorem mapModify_mapModify_same {α β : Type} [DecidableEq α] (l : List (α × β)) (k : α)
    (f g : β → β) : mapModify (mapModify l k f) k g = mapModify l k (fun b => g (f b)) := by
  simp only [mapModify, List.map_map]
  apply List.map_congr_left
  intro e _
  by_cases he : e.1 = k
  · simp [Function.comp, he]
  · simp [Function.comp, he]

theorem mem_setAdd {α : Type} [DecidableEq α] {l : List α} {x y : α} :
    x ∈ setAdd l y ↔ x = y ∨ x ∈ l := by
  unfold setAdd
  by_cases hy : y ∈ l
  · rw [if_pos hy]
    constructor
    · intro hx
      exact Or.inr hx
    · rintro (rfl | hx)
      · exact hy
      · exact hx
  · rw [if_neg hy]
    exact List.mem_cons

theorem mem_setErase {α : Type} [DecidableEq α] {l : List α} {x y : α} :
    x ∈ setErase l y ↔ x ∈ l ∧ x ≠ y := by
  induction l with
  | nil => simp [setErase]
  | cons e t ih =>
    by_cases he : e = y
    · rw [setErase, if_pos he, ih]
      constructor
      · rintro ⟨h1, h2⟩
        exact ⟨List.mem_cons_of_mem e h1, h2⟩
      · rintro ⟨h1, h2⟩
        rcases List.mem_cons.mp h1 with rfl | h1
        · exact absurd he h2
        · exact ⟨h1, h2⟩
    · rw [setErase, if_neg he]
      constructor
      · intro hm
        rcases List.mem_cons.mp hm with rfl | hm
        · exact ⟨List.mem_cons_self _ _, he⟩
        · have := ih.mp hm
          exact ⟨List.mem_cons_of_mem _ this.1, this.2⟩
      · rintro ⟨h1, h2⟩
        rcases List.mem_cons.mp h1 with rfl | h1
        · exact List.mem_cons_self _ _
        · exact List.mem_cons_of_mem _ (ih.mpr ⟨h1, h2⟩)

theorem mem_staleSndOf {S : List (String × Nat)} {a : Nat} :
    a ∈ staleSndOf S ↔ ∃ e ∈ S, e.2 = a := by
  simp only [staleSndOf, List.mem_map]

theorem inv_of_regs_eq {st st' : MState} (h1 : st'.heap = st.heap)
    (h2 : st'.players = st.players) (h3 : st'.stalePlayers = st.stalePlayers)
    (h4 : st'.nextObj = st.nextObj) (h : Inv st) : Inv st' := by
  unfold Inv
  rw [h1, h2, h3, h4]
  exact h

theorem postAuth_regs (st : MState) (pk : Nat) (name ref : String) (queue : Option Nat)
    (b : Bool) :
    (postAuth st pk name ref queue b).heap =
      mapModify st.heap pk (fun q => { q with dbRef := ref, name := name }) ∧
    (postAuth st pk name ref queue b).players = st.players ∧
    (postAuth st pk name ref queue b).stalePlayers = st.stalePlayers ∧
    (postAuth st pk name ref queue b).nextObj = st.nextObj ∧
    (postAuth st pk name ref queue b).store = st.store := by
  cases queue <;> exact ⟨rfl, rfl, rfl, rfl, rfl⟩

theorem inv_postAuth (st : MState) (pk : Nat) (name ref : String) (queue : Option Nat)
    (b : Bool) (hInv : Inv st) (hpk : pk ∈ st.players)
    (hfresh : ref ≠ "" → freshOk st pk ref) :
    Inv (postAuth st pk name ref queue b) := by
  obtain ⟨q1, q2, q3, q4, _⟩ := postAuth_regs st pk name ref queue b
  unfold Inv
  rw [q1, q2, q3, q4]
  obtain ⟨h1, h2, h3, h4, h5, h6⟩ := hInv
  refine ⟨?_, h2, ?_, ?_, ?_, ?_⟩
  · intro e he
    obtain ⟨pl, hg, hdb, hne, hterm, hnp⟩ := h1 e he
    have hepk : e.2 ≠ pk := fun hh => hnp (hh ▸ hpk)
    refine ⟨pl, ?_, hdb, hne, hterm, hnp⟩
    rw [mapGet_mapModify_ne st.heap pk e.2 _ hepk]
    exact hg
  · intro e' he' hdb hterm
    rcases mem_mapModify.mp he' with ⟨e, he, heq⟩
    by_cases hek : e.1 = pk
    · rw [if_pos hek] at heq
      subst heq
      exact Or.inl (hek ▸ hpk)
    · rw [if_neg hek] at heq
      subst heq
      exact h3 e' he hdb hterm
  · intro e' he' e2' he2' hne hterm hterm2 hdb
    rcases mem_mapModify.mp he' with ⟨e, he, heq⟩
    rcases mem_mapModify.mp he2' with ⟨e2, he2, heq2⟩
    by_cases hek : e.1 = pk
    · rw [if_pos hek] at heq
      by_cases hek2 : e2.1 = pk
      · rw [if_pos hek2] at heq2
        subst heq
        subst heq2
        exact absurd (hek.trans hek2.symm) hne
      · rw [if_neg hek2] at heq2
        subst heq
        subst heq2
        have hrefne : ref ≠ "" := hdb
        exact Ne.symm (hfresh hrefne e2' he2 (fun hh => hek2 hh) hterm2)
    · rw [if_neg hek] at heq
      by_cases hek2 : e2.1 = pk
      · rw [if_pos hek2] at heq2
        subst heq
        subst heq2
        by_cases hre : ref = ""
        · intro hh
          exact hdb (hh.trans hre)
        · exact hfresh hre e' he (fun hh => hek hh) hterm
      · rw [if_neg hek2] at heq2
        subst heq
        subst heq2
        exact h4 e' he e2' he2 hne hterm hterm2 hdb
  · rw [map_fst_mapModify]
    exact h5
  · intro e' he'
    rcases mem_mapModify.mp he' with ⟨e, he, heq⟩
    by_cases hek : e.1 = pk
    · rw [if_pos hek] at heq
      subst heq
      exact h6 e he
    · rw [if_neg hek] at heq
      subst heq
      exact h6 e' he

theorem stale_key_clash {st : MState} (hInv : Inv st) {pk : Nat} {pl : Player}
    (hg : mapGet st.heap pk = some pl) (hterm : pl.terminated = false)
    {e : Nat × Player} (he : e ∈ st.heap) (hek : e.1 ≠ pk) (hterm2 : e.2.terminated = false)
    {se : String × Nat} (hse : se ∈ st.stalePlayers) (hse2 : se.2 = e.1)
    (hsk : se.1 = pl.dbRef) : False := by
  obtain ⟨h1, _, _, h4, h5, _⟩ := hInv
  obtain ⟨q, hq, hqdb, hqne, _, _⟩ := h1 se hse
  have heg : mapGet st.heap e.1 = some e.2 := by
    have hme : (e.1, e.2) ∈ st.heap := by
      cases e
      exact he
    exact mapGet_of_mem_nodup h5 hme
  rw [hse2, heg] at hq
  have hqe : q = e.2 := (Option.some.inj hq).symm
  have hple : (pk, pl) ∈ st.heap := mapGet_eq_some_mem hg
  have hpldb : pl.dbRef ≠ "" := hsk ▸ hqne
  have hne4 := h4 (pk, pl) hple e he (Ne.symm hek) hterm hterm2 hpldb
  apply hne4
  rw [show e.2.dbRef = q.dbRef from (hqe ▸ rfl), hqdb, hsk]

theorem inv_acceptConnection (st : MState) (sock : Nat) (hInv : Inv st) :
    Inv (acceptConnection st sock) := by
  obtain ⟨h1, h2, h3, h4, h5, h6⟩ := hInv
  unfold Inv acceptConnection
  refine ⟨?_, h2, ?_, ?_, ?_, ?_⟩
  · intro e he
    obtain ⟨pl, hg, hdb, hne, hterm, hnp⟩ := h1 e he
    have hlt : e.2 < st.nextObj := h6 (e.2, pl) (mapGet_eq_some_mem hg)
    have hne2 : st.nextObj ≠ e.2 := fun hh => absurd (hh ▸ hlt) (lt_irrefl _)
    refine ⟨pl, ?_, hdb, hne, hterm, ?_⟩
    · rw [mapGet, if_neg hne2]
      exact hg
    · intro hmem
      rcases mem_setAdd.mp hmem with hh | hmem
      · exact hne2 hh.symm
      · exact hnp hmem
  · intro e' he' hdb hterm
    rcases List.mem_cons.mp he' with rfl | he'
    · exact absurd rfl hdb
    · rcases h3 e' he' hdb hterm with hp | hs
      · exact Or.inl (mem_setAdd.mpr (Or.inr hp))
      · exact Or.inr hs
  · intro e' he' e2' he2' hne hterm hterm2 hdb
    rcases List.mem_cons.mp he' with rfl | he'
    · exact absurd rfl hdb
    · rcases List.mem_cons.mp he2' with rfl | he2'
      · exact hdb
      · exact h4 e' he' e2' he2' hne hterm hterm2 hdb
  · rw [List.map_cons, List.nodup_cons]
    constructor
    · intro hmem
      rcases List.mem_map.mp hmem with ⟨e, he, hek⟩
      exact absurd (hek ▸ h6 e he) (lt_irrefl _)
    · exact h5
  · intro e' he'
    rcases List.mem_cons.mp he' with rfl | he'
    · exact Nat.lt_succ_self _
    · exact Nat.lt_succ_of_lt (h6 e' he')

theorem inv_fireDisconnection (st : MState) (pk : Nat) (ex : Bool) (hInv : Inv st) :
    Inv (fireDisconnection st pk ex) := by
  have hInv0 := hInv
  obtain ⟨h1, h2, h3, h4, h5, h6⟩ := hInv
  unfold fireDisconnection
  cases hg : mapGet st.heap pk with
  | none => exact ⟨h1, h2, h3, h4, h5, h6⟩
  | some pl =>
    dsimp only
    by_cases hterm : pl.terminated = true
    · rw [if_pos hterm]
      exact ⟨h1, h2, h3, h4, h5, h6⟩
    · have htf : pl.terminated = false := by
        simp at hterm
        exact hterm
      rw [if_neg hterm]
      cases ex with
      | true =>
        rw [if_pos rfl]
        show InvOn (mapModify st.heap pk (fun q => { q with terminated := true, conn := none }))
          (setErase st.players pk) (mapDelete st.stalePlayers pl.dbRef) st.nextObj
        refine ⟨?_, nodup_fst_mapDelete h2, ?_, ?_, ?_, ?_⟩
        · intro e he
          obtain ⟨hes, hknd⟩ := mem_mapDelete.mp he
          obtain ⟨q, hq, hqdb, hqne, hqterm, hqnp⟩ := h1 e hes
          have hepk : e.2 ≠ pk := by
            intro hh
            rw [hh, hg] at hq
            have hqpl : q = pl := (Option.some.inj hq).symm
            exact hknd ((hqpl ▸ hqdb).symm)
          refine ⟨q, ?_, hqdb, hqne, hqterm, ?_⟩
          · rw [mapGet_mapModify_ne st.heap pk e.2 _ hepk]
            exact hq
          · intro hmem
            exact hqnp (mem_setErase.mp hmem).1
        · intro e' he' hdb' hterm'
          rcases mem_mapModify.mp he' with ⟨e, he, heq⟩
          by_cases hek : e.1 = pk
          · rw [if_pos hek] at heq
            subst heq
            exact absurd hterm' (by simp)
          · rw [if_neg hek] at heq
            subst heq
            rcases h3 e' he hdb' hterm' with hp | hs
            · exact Or.inl (mem_setErase.mpr ⟨hp, hek⟩)
            · rcases mem_staleSndOf.mp hs with ⟨se, hse, hse2⟩
              by_cases hsk : se.1 = pl.dbRef
              · exact (stale_key_clash hInv0 hg htf he hek hterm' hse hse2 hsk).elim
              · exact Or.inr (mem_staleSndOf.mpr ⟨se, mem_mapDelete.mpr ⟨hse, hsk⟩, hse2⟩)
        · intro e' he' e2' he2' hne' hterm' hterm2' hdb'
          rcases mem_mapModify.mp he' with ⟨e, he, heq⟩
          rcases mem_mapModify.mp he2' with ⟨e2, he2, heq2⟩
          by_cases hek : e.1 = pk
          · rw [if_pos hek] at heq
            subst heq
            exact absurd hterm' (by simp)
          · rw [if_neg hek] at heq
            subst heq
            by_cases hek2 : e2.1 = pk
            · rw [if_pos hek2] at heq2
              subst heq2
              exact absurd hterm2' (by simp)
            · rw [if_neg hek2] at heq2
              subst heq2
              exact h4 e' he e2' he2 hne' hterm' hterm2' hdb'
        · rw [map_fst_mapModify]
          exact h5
        · intro e' he'
          rcases mem_mapModify.mp he' with ⟨e, he, heq⟩
          by_cases hek : e.1 = pk
          · rw [if_pos hek] at heq
            subst heq
            exact h6 e he
          · rw [if_neg hek] at heq
            subst heq
            exact h6 e' he
      | false =>
        rw [if_neg (by simp)]
        by_cases hdbe : pl.dbRef = ""
        · rw [if_neg (fun hc => hc hdbe)]
          show InvOn (mapModify st.heap pk (fun q => { q with terminated := true, conn := none }))
            (setErase st.players pk) st.stalePlayers st.nextObj
          refine ⟨?_, h2, ?_, ?_, ?_, ?_⟩
          · intro e he
            obtain ⟨q, hq, hqdb, hqne, hqterm, hqnp⟩ := h1 e he
            have hepk : e.2 ≠ pk := by
              intro hh
              rw [hh, hg] at hq
              have hqpl : q = pl := (Option.some.inj hq).symm
              exact hqne (((hqpl ▸ hqdb).symm).trans hdbe)
            refine ⟨q, ?_, hqdb, hqne, hqterm, ?_⟩
            · rw [mapGet_mapModify_ne st.heap pk e.2 _ hepk]
              exact hq
            · intro hmem
              exact hqnp (mem_setErase.mp hmem).1
          · intro e' he' hdb' hterm'
            rcases mem_mapModify.mp he' with ⟨e, he, heq⟩
            by_cases hek : e.1 = pk
            · rw [if_pos hek] at heq
              subst heq
              exact absurd hterm' (by simp)
            · rw [if_neg hek] at heq
              subst heq
              rcases h3 e' he hdb' hterm' with hp | hs
              · exact Or.inl (mem_setErase.mpr ⟨hp, hek⟩)
              · exact Or.inr hs
          · intro e' he' e2' he2' hne' hterm' hterm2' hdb'
            rcases mem_mapModify.mp he' with ⟨e, he, heq⟩
            rcases mem_mapModify.mp he2' with ⟨e2, he2, heq2⟩
            by_cases hek : e.1 = pk
            · rw [if_pos hek] at heq
              subst heq
              exact absurd hterm' (by simp)
            · rw [if_neg hek] at heq
              subst heq
              by_cases hek2 : e2.1 = pk
              · rw [if_pos hek2] at heq2
                subst heq2
                exact absurd hterm2' (by simp)
              · rw [if_neg hek2] at heq2
                subst heq2
                exact h4 e' he e2' he2 hne' hterm' hterm2' hdb'
          · rw [map_fst_mapModify]
            exact h5
          · intro e' he'
            rcases mem_mapModify.mp he' with ⟨e, he, heq⟩
            by_cases hek : e.1 = pk
            · rw [if_pos hek] at heq
              subst heq
              exact h6 e he
            · rw [if_neg hek] at heq
              subst heq
              exact h6 e' he
        · rw [if_pos hdbe]
          show InvOn (mapModify st.heap pk (fun q => { q with conn := none }))
            (setErase st.players pk) (mapSet st.stalePlayers pl.dbRef pk) st.nextObj
          refine ⟨?_, nodup_fst_mapSet h2, ?_, ?_, ?_, ?_⟩
          · intro e he
            rcases mem_mapSet.mp he with heq | ⟨hes, hknd⟩
            · subst heq
              refine ⟨{ pl with conn := none }, ?_, rfl, hdbe, htf, ?_⟩
              · rw [mapGet_mapModify_self, hg]
                rfl
              · intro hmem
                exact (mem_setErase.mp hmem).2 rfl
            · obtain ⟨q, hq, hqdb, hqne, hqterm, hqnp⟩ := h1 e hes
              have hepk : e.2 ≠ pk := by
                intro hh
                rw [hh, hg] at hq
                have hqpl : q = pl := (Option.some.inj hq).symm
                exact hknd ((hqpl ▸ hqdb).symm)
              refine ⟨q, ?_, hqdb, hqne, hqterm, ?_⟩
              · rw [mapGet_mapModify_ne st.heap pk e.2 _ hepk]
                exact hq
              · intro hmem
                exact hqnp (mem_setErase.mp hmem).1
          · intro e' he' hdb' hterm'
            rcases mem_mapModify.mp he' with ⟨e, he, heq⟩
            by_cases hek : e.1 = pk
            · rw [if_pos hek] at heq
              subst heq
              refine Or.inr (mem_staleSndOf.mpr ⟨(pl.dbRef, pk), mem_mapSet.mpr (Or.inl rfl), ?_⟩)
              rw [hek]
            · rw [if_neg hek] at heq
              subst heq
              rcases h3 e' he hdb' hterm' with hp | hs
              · exact Or.inl (mem_setErase.mpr ⟨hp, hek⟩)
              · rcases mem_staleSndOf.mp hs with ⟨se, hse, hse2⟩
                by_cases hsk : se.1 = pl.dbRef
                · exact (stale_key_clash hInv0 hg htf he hek hterm' hse hse2 hsk).elim
                · exact Or.inr (mem_staleSndOf.mpr ⟨se, mem_mapSet.mpr (Or.inr ⟨hse, hsk⟩), hse2⟩)
          · intro e' he' e2' he2' hne' hterm' hterm2' hdb'
            rcases mem_mapModify.mp he' with ⟨e, he, heq⟩
            rcases mem_mapModify.mp he2' with ⟨e2, he2, heq2⟩
            by_cases hek : e.1 = pk
            · rw [if_pos hek] at heq
              subst heq
              by_cases hek2 : e2.1 = pk
              · rw [if_pos hek2] at heq2
                subst heq2
                exact absurd (hek.trans hek2.symm) hne'
              · rw [if_neg hek2] at heq2
                subst heq2
                exact h4 e he e2' he2 (by rw [hek]; exact fun hh => hek2 hh.symm) hterm' hterm2' hdb'
            · rw [if_neg hek] at heq
              subst heq
              by_cases hek2 : e2.1 = pk
              · rw [if_pos hek2] at heq2
                subst heq2
                exact h4 e' he e2 he2 (by rw [hek2]; exact hek) hterm' hterm2' hdb'
              · rw [if_neg hek2] at heq2
                subst heq2
                exact h4 e' he e2' he2 hne' hterm' hterm2' hdb'
          · rw [map_fst_mapModify]
            exact h5
          · intro e' he'
            rcases mem_mapModify.mp he' with ⟨e, he, heq⟩
            by_cases hek : e.1 = pk
            · rw [if_pos hek] at heq
              subst heq
              exact h6 e he
            · rw [if_neg hek] at heq
              subst heq
              exact h6 e' he

theorem tryRespawn_none (st : MState) (pk : Nat) (name eref : String) (queue : Option Nat)
    (h : mapGet st.stalePlayers eref = none) :
    tryRespawn st pk name eref queue = (false, st) := by
  unfold tryRespawn
  rw [h]

theorem tryRespawn_some (st : MState) (pk : Nat) (name eref : String) (queue : Option Nat)
    (respK : Nat) (h : mapGet st.stalePlayers eref = some respK) :
    (tryRespawn st pk name eref queue).1 = true ∧
    (tryRespawn st pk name eref queue).2.heap =
      mapModify (mapModify st.heap respK (respawnFix st pk name eref)) pk discardFix ∧
    (tryRespawn st pk name eref queue).2.players = setAdd st.players respK ∧
    (tryRespawn st pk name eref queue).2.stalePlayers = mapDelete st.stalePlayers eref ∧
    (tryRespawn st pk name eref queue).2.nextObj = st.nextObj ∧
    (tryRespawn st pk name eref queue).2.outbox = st.outbox ++
      [(respK, { type := "Auth-Success", data := JSVal.bool true, terminal := false })] ∧
    (tryRespawn st pk name eref queue).2.lobbyForwards = st.lobbyForwards ++
      (match queue with | some q => [(respK, q)] | none => []) := by
  unfold tryRespawn switchStateConn postAuth pushOut switchStateNone
  rw [h]
  cases queue with
  | none =>
    dsimp only
    refine ⟨rfl, ?_, rfl, rfl, rfl, rfl, by simp⟩
    rw [mapModify_mapModify_same, mapModify_mapModify_same, mapModify_mapModify_same]
    rfl
  | some q =>
    dsimp only
    refine ⟨rfl, ?_, rfl, rfl, rfl, rfl, rfl⟩
    rw [mapModify_mapModify_same, mapModify_mapModify_same, mapModify_mapModify_same]
    rfl

theorem inv_tryRespawn (st : MState) (pk : Nat) (name eref : String) (queue : Option Nat)
    (hInv : Inv st) (hpk : pk ∈ st.players) :
    Inv (tryRespawn st pk name eref queue).2 := by
  cases h : mapGet st.stalePlayers eref with
  | none =>
    rw [tryRespawn_none st pk name eref queue h]
    exact hInv
  | some respK =>
    obtain ⟨h1, h2, h3, h4, h5, h6⟩ := hInv
    have hse : (eref, respK) ∈ st.stalePlayers := mapGet_eq_some_mem h
    obtain ⟨rpl, hrg, hrdb, hrne, hrterm, hrnp⟩ := h1 _ hse
    have hnek : respK ≠ pk := fun hh => hrnp (hh ▸ hpk)
    have hrmem : (respK, rpl) ∈ st.heap := mapGet_eq_some_mem hrg
    obtain ⟨-, hH, hP, hS, hN, -, -⟩ := tryRespawn_some st pk name eref queue respK h
    unfold Inv
    rw [hH, hP, hS, hN]
    refine ⟨?_, nodup_fst_mapDelete h2, ?_, ?_, ?_, ?_⟩
    · intro e he
      obtain ⟨hes, hknd⟩ := mem_mapDelete.mp he
      obtain ⟨q, hq, hqdb, hqne, hqterm, hqnp⟩ := h1 e hes
      have heK : e.2 ≠ respK := by
        intro hh
        rw [hh, hrg] at hq
        have hqr : q = rpl := (Option.some.inj hq).symm
        exact hknd ((hqr ▸ hqdb).symm.trans hrdb)
      have hepk : e.2 ≠ pk := fun hh => hqnp (hh ▸ hpk)
      refine ⟨q, ?_, hqdb, hqne, hqterm, ?_⟩
      · rw [mapGet_mapModify_ne _ pk e.2 _ hepk, mapGet_mapModify_ne _ respK e.2 _ heK]
        exact hq
      · intro hmem
        rcases mem_setAdd.mp hmem with hh | hh
        · exact heK hh
        · exact hqnp hh
    · intro e' he' hdb' hterm'
      rcases mem_mapModify.mp he' with ⟨em, hem, heq⟩
      rcases mem_mapModify.mp hem with ⟨e, he, heqm⟩
      by_cases heK : e.1 = respK
      · rw [if_pos heK] at heqm
        subst heqm
        have hnp : ((e.1, respawnFix st pk name eref e.2) : Nat × Player).1 ≠ pk :=
          fun hh => hnek (heK ▸ hh)
        rw [if_neg hnp] at heq
        subst heq
        exact Or.inl (mem_setAdd.mpr (Or.inl heK))
      · rw [if_neg heK] at heqm
        subst heqm
        by_cases hep : em.1 = pk
        · rw [if_pos hep] at heq
          subst heq
          rcases h3 em he hdb' hterm' with hpm | hsm
          · exact Or.inl (mem_setAdd.mpr (Or.inr hpm))
          · rcases mem_staleSndOf.mp hsm with ⟨se, hsem, hse2⟩
            obtain ⟨-, -, -, -, -, hnp2⟩ := h1 se hsem
            have : se.2 ∈ st.players := by
              rw [hse2, hep]
              exact hpk
            exact absurd this hnp2
        · rw [if_neg hep] at heq
          subst heq
          rcases h3 e' he hdb' hterm' with hpm | hsm
          · exact Or.inl (mem_setAdd.mpr (Or.inr hpm))
          · rcases mem_staleSndOf.mp hsm with ⟨se, hsem, hse2⟩
            by_cases hsk : se.1 = eref
            · have hsem2 : mapGet st.stalePlayers se.1 = some se.2 := by
                have hmm : (se.1, se.2) ∈ st.stalePlayers := by
                  cases se
                  exact hsem
                exact mapGet_of_mem_nodup h2 hmm
              rw [hsk, h] at hsem2
              have hser : se.2 = respK := Option.some.inj hsem2.symm
              exact absurd (hse2 ▸ hser) heK
            · exact Or.inr (mem_staleSndOf.mpr ⟨se, mem_mapDelete.mpr ⟨hsem, hsk⟩, hse2⟩)
    · intro e' he' e2' he2' hne' hterm' hterm2' hdb'
      rcases mem_mapModify.mp he' with ⟨em, hem, heq⟩
      rcases mem_mapModify.mp hem with ⟨e, he, heqm⟩
      rcases mem_mapModify.mp he2' with ⟨em2, hem2, heq2⟩
      rcases mem_mapModify.mp hem2 with ⟨e2, he2, heqm2⟩
      by_cases heK : e.1 = respK
      · rw [if_pos heK] at heqm
        subst heqm
        have hnp : ((e.1, respawnFix st pk name eref e.2) : Nat × Player).1 ≠ pk :=
          fun hh => hnek (heK ▸ hh)
        rw [if_neg hnp] at heq
        subst heq
        by_cases heK2 : e2.1 = respK
        · rw [if_pos heK2] at heqm2
          subst heqm2
          have hnp2 : ((e2.1, respawnFix st pk name eref e2.2) : Nat × Player).1 ≠ pk :=
            fun hh => hnek (heK2 ▸ hh)
          rw [if_neg hnp2] at heq2
          subst heq2
          exact absurd (heK.trans heK2.symm) hne'
        · rw [if_neg heK2] at heqm2
          subst heqm2
          by_cases hep2 : em2.1 = pk
          · rw [if_pos hep2] at heq2
            subst heq2
            intro hh
            by_cases hz : em2.2.dbRef = ""
            · exact hrne (hh.trans hz)
            · exact h4 em2 he2 (respK, rpl) hrmem (fun hk => hnek (hk.symm.trans hep2)) hterm2'
                hrterm hz (by rw [hrdb]; exact hh.symm)
          · rw [if_neg hep2] at heq2
            subst heq2
            intro hh
            by_cases hz : e2'.2.dbRef = ""
            · exact hrne (hh.trans hz)
            · exact h4 e2' he2 (respK, rpl) hrmem (fun hk => heK2 hk) hterm2'
                hrterm hz (by rw [hrdb]; exact hh.symm)
      · rw [if_neg heK] at heqm
        subst heqm
        by_cases heK2 : e2.1 = respK
        · rw [if_pos heK2] at heqm2
          subst heqm2
          have hnp2 : ((e2.1, respawnFix st pk name eref e2.2) : Nat × Player).1 ≠ pk :=
            fun hh => hnek (heK2 ▸ hh)
          rw [if_neg hnp2] at heq2
          subst heq2
          by_cases hep : em.1 = pk
          · rw [if_pos hep] at heq
            subst heq
            have := h4 em he (respK, rpl) hrmem (fun hk => hnek (hk.symm.trans hep)) hterm'
              hrterm hdb'
            rw [hrdb] at this
            exact this
          · rw [if_neg hep] at heq
            subst heq
            have := h4 e' he (respK, rpl) hrmem (fun hk => heK hk) hterm' hrterm hdb'
            rw [hrdb] at this
            exact this
        · rw [if_neg heK2] at heqm2
          subst heqm2
          by_cases hep : em.1 = pk
          · rw [if_pos hep] at heq
            subst heq
            by_cases hep2 : em2.1 = pk
            · rw [if_pos hep2] at heq2
              subst heq2
              exact absurd (hep.trans hep2.symm) hne'
            · rw [if_neg hep2] at heq2
              subst heq2
              exact h4 em he e2' he2 hne' hterm' hterm2' hdb'
          · rw [if_neg hep] at heq
            subst heq
            by_cases hep2 : em2.1 = pk
            · rw [if_pos hep2] at heq2
              subst heq2
              exact h4 e' he em2 he2 hne' hterm' hterm2' hdb'
            · rw [if_neg hep2] at heq2
              subst heq2
              exact h4 e' he e2' he2 hne' hterm' hterm2' hdb'
    · rw [map_fst_mapModify, map_fst_mapModify]
      exact h5
    · intro e' he'
      rcases mem_mapModify.mp he' with ⟨em, hem, heq⟩
      rcases mem_mapModify.mp hem with ⟨e, he, heqm⟩
      by_cases heK : e.1 = respK
      · rw [if_pos heK] at heqm
        subst heqm
        have hnp : ((e.1, respawnFix st pk name eref e.2) : Nat × Player).1 ≠ pk :=
          fun hh => hnek (heK ▸ hh)
        rw [if_neg hnp] at heq
        subst heq
        exact h6 e he
      · rw [if_neg heK] at heqm
        subst heqm
        by_cases hep : em.1 = pk
        · rw [if_pos hep] at heq
          subst heq
          exact h6 em he
        · rw [if_neg hep] at heq
          subst heq
          exact h6 e' he

theorem inv_respawnOrFresh (st : MState) (pk : Nat) (name key : String) (queue : Option Nat)
    (hInv : Inv st) (hpk : pk ∈ st.players)
    (hfr : mapGet st.stalePlayers key = none → key ≠ "" → freshOk st pk key) :
    Inv (respawnOrFresh st pk name key queue) := by
  unfold respawnOrFresh
  dsimp only
  cases h : mapGet st.stalePlayers key with
  | none =>
    rw [tryRespawn_none st pk name key queue h]
    dsimp only
    rw [if_neg (by simp)]
    exact inv_postAuth st pk name key queue false hInv hpk (hfr h)
  | some respK =>
    have hs := tryRespawn_some st pk name key queue respK h
    rw [if_pos hs.1]
    exact inv_tryRespawn st pk name key queue hInv hpk

theorem inv_handleMSG (st : MState) (pk : Nat) (m : InMsg) (ncode : Int)
    (hInv : Inv st) (hpk : pk ∈ st.players) (hbind : bindOk st pk (freshKeyOf st m)) :
    Inv (handleMSG st pk m ncode) := by
  unfold handleMSG
  by_cases hL : m.type = "Login"
  · rw [if_pos hL]
    cases hlo : loginOutcome st.store st.now m.data with
    | sessWarn => exact inv_of_regs_eq rfl rfl rfl rfl hInv
    | blocked => exact inv_of_regs_eq rfl rfl rfl rfl hInv
    | wrongPass => exact inv_of_regs_eq rfl rfl rfl rfl hInv
    | unregistered => exact inv_of_regs_eq rfl rfl rfl rfl hInv
    | auth name key =>
      apply inv_respawnOrFresh st pk name key m.data.queue hInv hpk
      intro hnone hne
      have hfk : freshKeyOf st m = some key := by
        unfold freshKeyOf
        rw [if_pos hL, hlo]
        dsimp only
        rw [hnone]
        rfl
      rw [hfk] at hbind
      exact hbind hne
  · rw [if_neg hL]
    by_cases hR : m.type = "Register"
    · rw [if_pos hR]
      cases hro : registerOutcome st.store m.data with
      | badAccess => exact inv_of_regs_eq rfl rfl rfl rfl hInv
      | malformed => exact inv_of_regs_eq rfl rfl rfl rfl hInv
      | shortName => exact inv_of_regs_eq rfl rfl rfl rfl hInv
      | longName => exact inv_of_regs_eq rfl rfl rfl rfl hInv
      | badPass => exact inv_of_regs_eq rfl rfl rfl rfl hInv
      | badEmail => exact inv_of_regs_eq rfl rfl rfl rfl hInv
      | dup => exact inv_of_regs_eq rfl rfl rfl rfl hInv
      | ok name email key =>
        dsimp only
        have hfk : freshKeyOf st m = some key := by
          unfold freshKeyOf
          rw [if_neg hL, if_pos hR, hro]
        rw [hfk] at hbind
        exact inv_postAuth _ pk name key none false
          (inv_of_regs_eq rfl rfl rfl rfl hInv) hpk (fun hne => hbind hne)
    · rw [if_neg hR]
      by_cases hLo : m.type = "Logout"
      · rw [if_pos hLo]
        cases hg : mapGet st.heap pk with
        | none => exact hInv
        | some pl =>
          dsimp only
          exact inv_fireDisconnection _ pk true (inv_of_regs_eq rfl rfl rfl rfl hInv)
      · rw [if_neg hLo]
        by_cases hS : m.type = "Search"
        · rw [if_pos hS]
          dsimp only
          by_cases hr : (Lobby.addFinder st pk m.data.gameId m.data.plrCount).1 = true
          · rw [if_pos hr]
            exact inv_of_regs_eq rfl rfl rfl rfl hInv
          · rw [if_neg hr]
            exact inv_of_regs_eq rfl rfl rfl rfl hInv
        · rw [if_neg hS]
          by_cases hC : m.type = "Cancel-Search"
          · rw [if_pos hC]
            exact inv_of_regs_eq rfl rfl rfl rfl hInv
          · rw [if_neg hC]
            exact inv_of_regs_eq rfl rfl rfl rfl hInv

theorem inv_step (st : MState) (op : Op) (hInv : Inv st) (hok : stepOk st op) :
    Inv (step st op) := by
  cases op with
  | connect sock => exact inv_acceptConnection st sock hInv
  | message pk m ncode => exact inv_handleMSG st pk m ncode hInv hok.1 hok.2
  | dropConn pk => exact inv_fireDisconnection st pk false hInv

theorem exactlyOne_of_inv (st : MState) (hInv : Inv st) : exactlyOne st := by
  obtain ⟨h1, h2, h3, h4, h5, h6⟩ := hInv
  intro e he hdb hterm
  rcases h3 e he hdb hterm with hp | hs
  · left
    refine ⟨hp, ?_⟩
    intro hmem
    rcases mem_staleSndOf.mp hmem with ⟨se, hse, hse2⟩
    obtain ⟨-, -, -, -, -, hnp⟩ := h1 se hse
    apply hnp
    rw [hse2]
    exact hp
  · right
    refine ⟨?_, hs⟩
    intro hmem
    rcases mem_staleSndOf.mp hs with ⟨se, hse, hse2⟩
    obtain ⟨-, -, -, -, -, hnp⟩ := h1 se hse
    apply hnp
    rw [hse2]
    exact hmem

/-- Claim C1, amended.  For every player whose persistentRef is non-empty,
after any completed operation of the orchestrator (connection accept, message
handling — login, respawn, logout, lobby traffic — and disconnection
handling) that player appears in exactly one of the active player set and the
stale player map, provided the registry invariant held before and the
operation is wellformed: the message comes from an active connection and does
not freshly bind a persistent key already held by another live player (no
double login of one account).  The registry invariant itself is preserved, so
the property holds along every such trace. -/
theorem C1_invariant_preserved (st : MState) (op : Op)
    (hInv : Inv st) (hok : stepOk st op) :
    Inv (step st op) ∧ exactlyOne (step st op) :=
  ⟨inv_step st op hInv hok, exactlyOne_of_inv _ (inv_step st op hInv hok)⟩

/-- Witness for C1: the amended preservation theorem applied at the empty
orchestrator state and a connection-accept operation. -/
theorem C1_invariant_preserved_witness :
    Inv (step st0 (Op.connect 10)) ∧ exactlyOne (step st0 (Op.connect 10)) :=
  C1_invariant_preserved st0 (Op.connect 10) (by decide) (by decide)

/-- Counterexample to claim C1 as stated.  From the empty state (which
satisfies the invariant and the exactly-one property) the completed trace
connect, connect, password login of the same account on both connections,
drop of the first connection, drop of the second, leaves player object 0
live and bound to a non-empty persistentRef, yet in neither the active set
nor the stale map: the second disconnection overwrote the stale entry of the
shared key. -/
theorem C1_counterexample :
    Inv st0 ∧ exactlyOne st0 ∧ c1Final = runOps st0 c1Trace ∧
    mapGet c1Final.heap 0 =
      some { id := 0, name := "alice", dbRef := exKey, conn := none, status := 0,
             terminated := false } ∧
    exKey ≠ "" ∧ 0 ∉ c1Final.players ∧ 0 ∉ staleSndOf c1Final.stalePlayers ∧
    ¬ exactlyOne c1Final :=
  ⟨by decide, by decide, rfl, by decide, by decide, by decide, by decide, by decide⟩

/-- Claim C2.  Master.tryRespawn returns true exactly when the key is present
in the stale registry.  On success the stale entry for the key is removed,
the stale player takes over the new player's socket, its authentication is
finalized as a revival whose notice carries the respawn flag and whose
pending matchmaking queue request is forwarded, its ephemeral id becomes the
new connection's id while its persistentRef is unchanged, the revived player
re-enters the active set, and the new connection's own player is discarded:
connection released, ephemeral id set to the invalid value -1.  On failure
the state is untouched, and the respawn-or-fresh combinator used by the
callers performs normal authentication instead. -/
theorem C2_tryRespawn (st : MState) (pk : Nat) (name eref : String) (queue : Option Nat) :
    ((tryRespawn st pk name eref queue).1 = true ↔
      (mapGet st.stalePlayers eref).isSome = true) ∧
    ((tryRespawn st pk name eref queue).1 = false →
      (tryRespawn st pk name eref queue).2 = st) ∧
    (mapGet st.stalePlayers eref = none →
      respawnOrFresh st pk name eref queue = postAuth st pk name eref queue false) ∧
    (∀ respK rpl ppl, mapGet st.stalePlayers eref = some respK →
      mapGet st.heap respK = some rpl → mapGet st.heap pk = some ppl → respK ≠ pk →
      mapGet (tryRespawn st pk name eref queue).2.stalePlayers eref = none ∧
      mapGet (tryRespawn st pk name eref queue).2.heap respK =
        some { rpl with conn := ppl.conn, dbRef := eref, name := name, id := ppl.id } ∧
      (rpl.dbRef = eref →
        (mapGet (tryRespawn st pk name eref queue).2.heap respK).map Player.dbRef =
          some rpl.dbRef) ∧
      mapGet (tryRespawn st pk name eref queue).2.heap pk =
        some { ppl with conn := none, id := -1 } ∧
      (tryRespawn st pk name eref queue).2.players = setAdd st.players respK ∧
      (tryRespawn st pk name eref queue).2.outbox = st.outbox ++
        [(respK, { type := "Auth-Success", data := JSVal.bool true, terminal := false })] ∧
      (tryRespawn st pk name eref queue).2.lobbyForwards = st.lobbyForwards ++
        (match queue with | some q => [(respK, q)] | none => [])) := by
  refine ⟨?_, ?_, ?_, ?_⟩
  · cases h : mapGet st.stalePlayers eref with
    | none =>
      rw [tryRespawn_none st pk name eref queue h]
      simp
    | some respK =>
      rw [(tryRespawn_some st pk name eref queue respK h).1]
      simp
  · intro hf
    cases h : mapGet st.stalePlayers eref with
    | none => rw [tryRespawn_none st pk name eref queue h]
    | some respK =>
      rw [(tryRespawn_some st pk name eref queue respK h).1] at hf
      exact absurd hf (by simp)
  · intro h
    unfold respawnOrFresh
    dsimp only
    rw [tryRespawn_none st pk name eref queue h]
    dsimp only
    rw [if_neg (by simp)]
  · intro respK rpl ppl h hrg hpg hne
    obtain ⟨-, hH, hP, hS, -, hOut, hLF⟩ := tryRespawn_some st pk name eref queue respK h
    have hfix : respawnFix st pk name eref rpl =
        { rpl with conn := ppl.conn, dbRef := eref, name := name, id := ppl.id } := by
      unfold respawnFix
      rw [hpg]
    refine ⟨?_, ?_, ?_, ?_, hP, hOut, hLF⟩
    · rw [hS]
      exact mapGet_mapDelete_self _ _
    · rw [hH, mapGet_mapModify_ne _ pk respK _ hne, mapGet_mapModify_self, hrg,
        Option.map_some', hfix]
    · intro hrdbe
      rw [hH, mapGet_mapModify_ne _ pk respK _ hne, mapGet_mapModify_self, hrg,
        Option.map_some', hfix, Option.map_some', hrdbe]
    · rw [hH, mapGet_mapModify_self, mapGet_mapModify_ne _ respK pk _ (Ne.symm hne), hpg,
        Option.map_some']
      rfl

/-- Witness for C2: the respawn effects at the concrete stale-player state. -/
theorem C2_tryRespawn_witness :
    mapGet (tryRespawn stC2 4 "alice" exKey (some 9)).2.stalePlayers exKey = none ∧
    mapGet (tryRespawn stC2 4 "alice" exKey (some 9)).2.heap 3 =
      some { stalePl with conn := freshPl.conn, dbRef := exKey, name := "alice",
                          id := freshPl.id } ∧
    mapGet (tryRespawn stC2 4 "alice" exKey (some 9)).2.heap 4 =
      some { freshPl with conn := none, id := -1 } := by
  have h := (C2_tryRespawn stC2 4 "alice" exKey (some 9)).2.2.2 3 stalePl freshPl
    (by decide) (by decide) (by decide) (by decide)
  exact ⟨h.1, h.2.1, h.2.2.2.1⟩

/-- Claim C3.  Master.broadcast sends the message to every active player when
the check is absent or falsy; to exactly those active players for which the
check function returns true when it is a function; and to every active player
except the reference itself when it is a player reference — in particular to
zero players when the active set is exactly that player.  The outbound trace
gains exactly the selected players' messages. -/
theorem C3_broadcast (st : MState) (t : String) (d : JSVal) (f : Player → Bool) (j : Nat) :
    broadcastList st BCheck.noCheck = st.players ∧
    (∀ k, k ∈ broadcastList st (BCheck.func f) ↔
      k ∈ st.players ∧ (mapGet st.heap k).map f = some true) ∧
    (∀ k, k ∈ broadcastList st (BCheck.plr j) ↔ k ∈ st.players ∧ k ≠ j) ∧
    (st.players = [j] → broadcastList st (BCheck.plr j) = []) ∧
    (∀ check, (broadcast st t d check).outbox = st.outbox ++
      (broadcastList st check).map
        (fun k => (k, { type := t, data := d, terminal := false : OutMsg }))) := by
  refine ⟨?_, ?_, ?_, ?_, fun check => rfl⟩
  · unfold broadcastList proceedCheck
    simp
  · intro k
    unfold broadcastList
    rw [List.mem_filter]
    unfold proceedCheck
    cases hg : mapGet st.heap k <;> simp [hg]
  · intro k
    unfold broadcastList
    rw [List.mem_filter]
    unfold proceedCheck
    simp
  · intro hp
    unfold broadcastList proceedCheck
    rw [hp]
    simp

/-- Witness for C3: broadcasting with exclusion of the only active player
delivers to nobody. -/
theorem C3_broadcast_witness : broadcastList stC2 (BCheck.plr 4) = [] :=
  (C3_broadcast stC2 "Status-Update" JSVal.null (fun _ => true) 4).2.2.2.1 (by rfl)

theorem registerOutcome_ok_shape (store : Store) (data : MsgData) (nm em key : String)
    (hok : registerOutcome store data = RegOutcome.ok nm em key) :
    ∃ nm0 em0 pw0, data.name = JSVal.str nm0 ∧ data.email = JSVal.str em0 ∧
      data.pass = JSVal.str pw0 ∧ nm0 ≠ "" ∧ em0 ≠ "" ∧ pw0 ≠ "" ∧
      4 ≤ nm0.length ∧ nm0.length ≤ 20 ∧
      Utility.isValidPassword pw0 = true ∧ Utility.isValidEmail em0 = true ∧
      nm = jsTrim nm0 ∧ em = jsLower (jsTrim em0) ∧
      key = Utility.hash (jsLower (jsTrim em0)) "md5" ∧
      usersGet store key = none ∧
      looseEq (regAccessVal store) data.access = true := by
  unfold registerOutcome at hok
  by_cases hg : looseEq (regAccessVal store) data.access = true
  · rw [if_pos hg] at hok
    cases hn : data.name with
    | str nm0 =>
      cases he : data.email with
      | str em0 =>
        cases hp : data.pass with
        | str pw0 =>
          rw [hn, he, hp] at hok
          dsimp only at hok
          by_cases h1 : nm0 = "" ∨ em0 = "" ∨ pw0 = ""
          · rw [if_pos h1] at hok
            simp at hok
          · rw [if_neg h1] at hok
            push_neg at h1
            by_cases h2 : nm0.length < 4
            · rw [if_pos h2] at hok
              simp at hok
            · rw [if_neg h2] at hok
              by_cases h3 : nm0.length > 20
              · rw [if_pos h3] at hok
                simp at hok
              · rw [if_neg h3] at hok
                by_cases h4 : Utility.isValidPassword pw0 = true
                · rw [if_neg (fun hc => hc h4)] at hok
                  by_cases h5 : Utility.isValidEmail em0 = true
                  · rw [if_neg (fun hc => hc h5)] at hok
                    by_cases h6 : (usersGet store
                        (Utility.hash (jsLower (jsTrim em0)) "md5")).isSome = true
                    · rw [if_pos h6] at hok
                      simp at hok
                    · rw [if_neg h6] at hok
                      simp only [RegOutcome.ok.injEq] at hok
                      refine ⟨nm0, em0, pw0, rfl, rfl, rfl, h1.1, h1.2.1, h1.2.2,
                        Nat.le_of_not_lt h2, Nat.le_of_not_lt h3, h4, h5,
                        hok.1.symm, hok.2.1.symm, ?_, ?_, hg⟩
                      · rw [← hok.2.2]
                      · rw [← hok.2.2]
                        exact Option.not_isSome_iff_eq_none.mp h6
                  · rw [if_pos (fun hc => absurd hc h5)] at hok
                    simp at hok
                · rw [if_pos (fun hc => absurd hc h4)] at hok
                  simp at hok
        | null => rw [hn, he, hp] at hok; simp at hok
        | undef => rw [hn, he, hp] at hok; simp at hok
        | num n => rw [hn, he, hp] at hok; simp at hok
        | bool b => rw [hn, he, hp] at hok; simp at hok
      | null => rw [hn, he] at hok; cases data.pass <;> simp at hok
      | undef => rw [hn, he] at hok; cases data.pass <;> simp at hok
      | num n => rw [hn, he] at hok; cases data.pass <;> simp at hok
      | bool b => rw [hn, he] at hok; cases data.pass <;> simp at hok
    | null => rw [hn] at hok; cases data.email <;> cases data.pass <;> simp at hok
    | undef => rw [hn] at hok; cases data.email <;> cases data.pass <;> simp at hok
    | num n => rw [hn] at hok; cases data.email <;> cases data.pass <;> simp at hok
    | bool b => rw [hn] at hok; cases data.email <;> cases data.pass <;> simp at hok
  · rw [if_neg hg] at hok
    simp at hok

/-- Counterexample to claim C4 as stated.  The fresh random draw can repeat
the consumed code: starting from the live code 111111 and drawing 111111
again (a possible outcome, as every value in 100000..999998 is), a second
Register presenting the just-consumed code 111111 is not rejected as
invalid — it passes the gate and writes a fresh document. -/
theorem C4_counterexample :
    validDraw 111111 ∧
    c4St1.store.regAccessCode = some 111111 ∧
    registerOutcome c4St1.store c4Msg2.data =
      RegOutcome.ok "Carol" "other@mail.com" (Utility.hash "other@mail.com" "md5") ∧
    usersGet c4St2.store (Utility.hash "other@mail.com" "md5") =
      some { pass := Utility.hash "abcd#efgh" "sha", email := "other@mail.com",
             name := "Carol", isBlocked := false, session := none } :=
  ⟨⟨by decide, by decide⟩, by decide, by decide, by decide⟩

/-- Claim C4, amended.  After a successful Register the store holds the
document with the digested password, the lower-cased trimmed email, the
trimmed name and isBlocked false at the email-hash key, and the shared
access code is rotated to the drawn value; every subsequent Register attempt
presenting the just-consumed code — as a number or as a numeric string — is
rejected as invalid provided the fresh draw differs from the consumed
code (the truncated random draw ranges over 100000..999998 and may repeat
it). -/
theorem C4_register_success (st : MState) (pk : Nat) (data : MsgData) (ncode : Int)
    (nm em key : String)
    (hok : registerOutcome st.store data = RegOutcome.ok nm em key) :
    usersGet (handleMSG st pk { type := "Register", data := data } ncode).store key =
      some { pass := Utility.hash (jsToStr data.pass) "sha", email := em, name := nm,
             isBlocked := false, session := none } ∧
    (handleMSG st pk { type := "Register", data := data } ncode).store.regAccessCode =
      some ncode ∧
    (∀ nm0 em0, data.name = JSVal.str nm0 → data.email = JSVal.str em0 →
      nm = jsTrim nm0 ∧ em = jsLower (jsTrim em0) ∧
      key = Utility.hash (jsLower (jsTrim em0)) "md5") ∧
    (∀ oldC, ncode ≠ oldC →
      (∀ d2 : MsgData, d2.access = JSVal.num oldC →
        registerOutcome (handleMSG st pk { type := "Register", data := data } ncode).store d2 =
          RegOutcome.badAccess) ∧
      (∀ d2 : MsgData, ∀ s2, d2.access = JSVal.str s2 → jsToNumberInt s2 = some oldC →
        registerOutcome (handleMSG st pk { type := "Register", data := data } ncode).store d2 =
          RegOutcome.badAccess)) := by
  have hst : (handleMSG st pk { type := "Register", data := data } ncode).store =
      storeSetAccess (usersSet st.store key
        { pass := Utility.hash (jsToStr data.pass) "sha", email := em, name := nm,
          isBlocked := false, session := none }) ncode := by
    unfold handleMSG
    dsimp only
    rw [if_neg (by decide), if_pos rfl, hok]
    dsimp only
    exact (postAuth_regs _ pk nm key none false).2.2.2.2
  refine ⟨?_, ?_, ?_, ?_⟩
  · rw [hst]
    exact mapGet_mapSet_self st.store.users key _
  · rw [hst]
    rfl
  · intro nm0 em0 hn he
    obtain ⟨nm0', em0', pw0', hn', he', hp', -, -, -, -, -, -, -, hnm, hem, hkey, -, -⟩ :=
      registerOutcome_ok_shape st.store data nm em key hok
    rw [hn] at hn'
    rw [he] at he'
    have e1 : nm0 = nm0' := JSVal.str.inj hn'
    have e2 : em0 = em0' := JSVal.str.inj he'
    rw [e1, e2]
    exact ⟨hnm, hem, hkey⟩
  · intro oldC hne2
    constructor
    · intro d2 hacc
      unfold registerOutcome
      rw [hst, hacc]
      rw [if_neg (by simp [storeSetAccess, regAccessVal, looseEq, hne2])]
    · intro d2 s2 hacc hs2
      unfold registerOutcome
      rw [hst, hacc]
      rw [if_neg (by
        simp [storeSetAccess, regAccessVal, looseEq, hs2]
        exact fun hh => hne2 hh.symm)]

/-- Witness for C4: the concrete registration writes the normalized document
and rotates the code to the fresh draw. -/
theorem C4_register_success_witness :
    usersGet (handleMSG st0 0 c4Msg 333333).store (Utility.hash "new@mail.com" "md5") =
      some { pass := Utility.hash "abcd#efgh" "sha", email := "new@mail.com",
             name := "Bobby", isBlocked := false, session := none } ∧
    (handleMSG st0 0 c4Msg 333333).store.regAccessCode = some 333333 := by
  have h := C4_register_success st0 0 c4Msg.data 333333 "Bobby" "new@mail.com"
    (Utility.hash "new@mail.com" "md5") (by decide)
  exact ⟨h.1, h.2.1⟩

/-- Counterexample to claim C5 as stated.  The name gate measures the raw
string before trimming: the padded name of raw length 4 trims to a single
character yet is accepted, and a document is written whose stored name has
length 1, outside the claimed 4..20 range. -/
theorem C5_counterexample :
    (jsTrim "  a ").length = 1 ∧
    registerOutcome st0.store c5Msg.data =
      RegOutcome.ok "a" "third@mail.com" (Utility.hash "third@mail.com" "md5") ∧
    usersGet c5Final.store (Utility.hash "third@mail.com" "md5") =
      some { pass := Utility.hash "abcd#efgh" "sha", email := "third@mail.com", name := "a",
             isBlocked := false, session := none } :=
  ⟨by decide, by decide, by decide⟩

/-- Claim C5, amended.  With a valid access code and well-typed fields, a
name is accepted only if its raw length before trimming is between 4 and 20
inclusive — the stored name is the trimmed form, which may be shorter; a
nonempty name of raw length below 4 or above 20 is rejected with the
corresponding terminal error before any document is written. -/
theorem C5_name_length (st : MState) (pk : Nat) (data : MsgData) (ncode : Int)
    (nm0 em0 pw0 : String) (hn : data.name = JSVal.str nm0) (he : data.email = JSVal.str em0)
    (hp : data.pass = JSVal.str pw0) :
    (∀ nm em key, registerOutcome st.store data = RegOutcome.ok nm em key →
      4 ≤ nm0.length ∧ nm0.length ≤ 20 ∧ nm = jsTrim nm0) ∧
    (looseEq (regAccessVal st.store) data.access = true → nm0 ≠ "" → em0 ≠ "" → pw0 ≠ "" →
      nm0.length < 4 →
      handleMSG st pk { type := "Register", data := data } ncode =
        pushOut st pk { type := "Error",
                        data := JSVal.str "Name is too short, it should be at least 4 characters long.",
                        terminal := true }) ∧
    (looseEq (regAccessVal st.store) data.access = true → nm0 ≠ "" → em0 ≠ "" → pw0 ≠ "" →
      nm0.length > 20 →
      handleMSG st pk { type := "Register", data := data } ncode =
        pushOut st pk { type := "Error",
                        data := JSVal.str "Name is too long, it must not exceed 20 characters.",
                        terminal := true }) := by
  refine ⟨?_, ?_, ?_⟩
  · intro nm em key hok
    obtain ⟨nm0', em0', pw0', hn', he', hp', -, -, -, hl1, hl2, -, -, hnm, -, -, -, -⟩ :=
      registerOutcome_ok_shape st.store data nm em key hok
    rw [hn] at hn'
    have e1 : nm0 = nm0' := JSVal.str.inj hn'
    rw [e1]
    exact ⟨hl1, hl2, hnm⟩
  · intro hgate hne1 hne2 hne3 hlen
    have hro : registerOutcome st.store data = RegOutcome.shortName := by
      unfold registerOutcome
      rw [if_pos hgate, hn, he, hp]
      dsimp only
      rw [if_neg (by simp [hne1, hne2, hne3]), if_pos hlen]
    unfold handleMSG
    dsimp only
    rw [if_neg (by decide), if_pos rfl, hro]
  · intro hgate hne1 hne2 hne3 hlen
    have hro : registerOutcome st.store data = RegOutcome.longName := by
      unfold registerOutcome
      rw [if_pos hgate, hn, he, hp]
      dsimp only
      rw [if_neg (by simp [hne1, hne2, hne3]), if_neg (by omega), if_pos hlen]
    unfold handleMSG
    dsimp only
    rw [if_neg (by decide), if_pos rfl, hro]

/-- Witness for C5: a two-character name is rejected with the terminal
short-name error. -/
theorem C5_name_length_witness :
    handleMSG st0 0 { type := "Register", data := c5ShortData } 0 =
      pushOut st0 0 { type := "Error",
                      data := JSVal.str "Name is too short, it should be at least 4 characters long.",
                      terminal := true } :=
  (C5_name_length st0 0 c5ShortData 0 "ab" "ok@mail.com" "abcd#efgh" rfl rfl rfl).2.1
    (by decide) (by decide) (by decide) (by decide) (by decide)

/-- Claim C6.  For a login payload supplying a session token (a truthy
string): if the query by session finds no matching document, or the found
document's embedded expiry is not in the future, the client receives exactly
one terminal warning and the handler stops with active set, stale map, heap
and store untouched; and once a token was supplied the handler's result does
not depend on the email or password fields at all, so the password path is
never attempted. -/
theorem handleMSG_login (st : MState) (pk : Nat) (data : MsgData) (ncode : Int) :
    handleMSG st pk { type := "Login", data := data } ncode =
      match loginOutcome st.store st.now data with
      | .sessWarn =>
        pushOut st pk { type := "Warn", data := JSVal.str "Session expired! login again",
                        terminal := true }
      | .blocked =>
        pushOut st pk { type := "Warn", data := JSVal.str "Your are blocked by admin",
                        terminal := true }
      | .auth name key => respawnOrFresh st pk name key data.queue
      | .wrongPass =>
        pushOut st pk { type := "Error", data := JSVal.str "Oh! It's wrong login password.",
                        terminal := true }
      | .unregistered =>
        pushOut st pk { type := "Error", data := JSVal.str "Please register first to continue",
                        terminal := true } := rfl

theorem C6_session_token (st : MState) (pk : Nat) (data : MsgData) (ncode : Int) (s : String)
    (hs : data.sess = JSVal.str s) (hne : s ≠ "") :
    ((∀ dref doc, queryBySession st.store s = some (dref, doc) →
        sessActive doc st.now = false) →
      handleMSG st pk { type := "Login", data := data } ncode =
        pushOut st pk { type := "Warn", data := JSVal.str "Session expired! login again",
                        terminal := true } ∧
      (handleMSG st pk { type := "Login", data := data } ncode).players = st.players ∧
      (handleMSG st pk { type := "Login", data := data } ncode).stalePlayers =
        st.stalePlayers ∧
      (handleMSG st pk { type := "Login", data := data } ncode).heap = st.heap ∧
      (handleMSG st pk { type := "Login", data := data } ncode).store = st.store) ∧
    (∀ data2 : MsgData, ∀ nc2 : Int, data2.sess = JSVal.str s → data2.queue = data.queue →
      handleMSG st pk { type := "Login", data := data2 } nc2 =
        handleMSG st pk { type := "Login", data := data } ncode) := by
  have hst1 : sessTaken data.sess = some s := by
    rw [hs]
    unfold sessTaken
    dsimp only
    rw [if_neg hne]
  constructor
  · intro hq
    have hlo : loginOutcome st.store st.now data = LoginOutcome.sessWarn := by
      unfold loginOutcome
      rw [hst1]
      dsimp only
      cases hqq : queryBySession st.store s with
      | none => rfl
      | some e =>
        rcases e with ⟨dref, doc⟩
        dsimp only
        rw [if_neg (by simp [hq dref doc hqq])]
    have hh : handleMSG st pk { type := "Login", data := data } ncode =
        pushOut st pk { type := "Warn", data := JSVal.str "Session expired! login again",
                        terminal := true } := by
      rw [handleMSG_login, hlo]
    rw [hh]
    exact ⟨rfl, rfl, rfl, rfl, rfl⟩
  · intro data2 nc2 hs2 hq
    have hst2 : sessTaken data2.sess = some s := by
      rw [hs2]
      unfold sessTaken
      dsimp only
      rw [if_neg hne]
    have hlo2 : loginOutcome st.store st.now data2 = loginOutcome st.store st.now data := by
      unfold loginOutcome
      rw [hst1, hst2]
    rw [handleMSG_login, handleMSG_login, hlo2]
    cases loginOutcome st.store st.now data with
    | sessWarn => rfl
    | blocked => rfl
    | wrongPass => rfl
    | unregistered => rfl
    | auth name key =>
      dsimp only
      rw [hq]

/-- Witness for C6: the concrete token login against a store holding no
session warns terminally and leaves the registries unchanged. -/
theorem C6_session_token_witness :
    handleMSG st0 0 { type := "Login", data := tokData } 0 =
      pushOut st0 0 { type := "Warn", data := JSVal.str "Session expired! login again",
                      terminal := true } :=
  ((C6_session_token st0 0 tokData 0 "tok|99" rfl (by decide)).1
    (fun dref doc h => by
      rw [show queryBySession st0.store "tok|99" = none from by decide] at h
      exact Option.noConfusion h)).1

/-- Claim C7.  On the password path (no truthy string token supplied): a
document at the email-hash key whose stored digest differs from the digest
of the supplied password draws exactly one terminal wrong-password error; a
matching digest on a blocked account draws a terminal warning; a matching
digest on an unblocked account proceeds to respawn-or-fresh authentication;
no document at the key draws a terminal register-first error; and in every
case whose reply is a single pushed message the connection stays open and
the active set, stale map, heap and store are unchanged. -/
theorem C7_password_path (st : MState) (pk : Nat) (data : MsgData) (ncode : Int)
    (hsess : sessTaken data.sess = none) :
    (∀ doc, usersGet st.store (emKeyOf data.email) = some doc →
      doc.pass ≠ Utility.hash (jsToStr data.pass) "sha" →
      handleMSG st pk { type := "Login", data := data } ncode =
        pushOut st pk { type := "Error", data := JSVal.str "Oh! It's wrong login password.",
                        terminal := true }) ∧
    (∀ doc, usersGet st.store (emKeyOf data.email) = some doc →
      doc.pass = Utility.hash (jsToStr data.pass) "sha" → doc.isBlocked = true →
      handleMSG st pk { type := "Login", data := data } ncode =
        pushOut st pk { type := "Warn", data := JSVal.str "Your are blocked by admin",
                        terminal := true }) ∧
    (∀ doc, usersGet st.store (emKeyOf data.email) = some doc →
      doc.pass = Utility.hash (jsToStr data.pass) "sha" → doc.isBlocked = false →
      handleMSG st pk { type := "Login", data := data } ncode =
        respawnOrFresh st pk doc.name (emKeyOf data.email) data.queue) ∧
    (usersGet st.store (emKeyOf data.email) = none →
      handleMSG st pk { type := "Login", data := data } ncode =
        pushOut st pk { type := "Error", data := JSVal.str "Please register first to continue",
                        terminal := true }) ∧
    (∀ m : OutMsg, handleMSG st pk { type := "Login", data := data } ncode = pushOut st pk m →
      (handleMSG st pk { type := "Login", data := data } ncode).players = st.players ∧
      (handleMSG st pk { type := "Login", data := data } ncode).stalePlayers =
        st.stalePlayers ∧
      (handleMSG st pk { type := "Login", data := data } ncode).heap = st.heap ∧
      (handleMSG st pk { type := "Login", data := data } ncode).store = st.store) := by
  refine ⟨?_, ?_, ?_, ?_, ?_⟩
  · intro doc hdoc hpne
    have hlo : loginOutcome st.store st.now data = LoginOutcome.wrongPass := by
      unfold loginOutcome
      rw [hsess]
      dsimp only
      rw [hdoc]
      dsimp only
      rw [if_neg hpne]
    rw [handleMSG_login, hlo]
  · intro doc hdoc hpe hbl
    have hlo : loginOutcome st.store st.now data = LoginOutcome.blocked := by
      unfold loginOutcome
      rw [hsess]
      dsimp only
      rw [hdoc]
      dsimp only
      rw [if_pos hpe, if_pos hbl]
    rw [handleMSG_login, hlo]
  · intro doc hdoc hpe hbl
    have hlo : loginOutcome st.store st.now data =
        LoginOutcome.auth doc.name (emKeyOf data.email) := by
      unfold loginOutcome
      rw [hsess]
      dsimp only
      rw [hdoc]
      dsimp only
      rw [if_pos hpe, if_neg (by simp [hbl])]
    rw [handleMSG_login, hlo]
  · intro hdoc
    have hlo : loginOutcome st.store st.now data = LoginOutcome.unregistered := by
      unfold loginOutcome
      rw [hsess]
      dsimp only
      rw [hdoc]
    rw [handleMSG_login, hlo]
  · intro m hm
    rw [hm]
    exact ⟨rfl, rfl, rfl, rfl⟩

/-- Witness for C7: a wrong password for the registered concrete account
draws exactly the terminal wrong-password error. -/
theorem C7_password_path_witness :
    handleMSG st0 0 { type := "Login", data := wpData } 0 =
      pushOut st0 0 { type := "Error", data := JSVal.str "Oh! It's wrong login password.",
                      terminal := true } :=
  (C7_password_path st0 0 wpData 0 rfl).1 exDoc (by decide) (by decide)

/-- Counterexample to claim C8 as stated.  The unrecognized-type reply omits
the terminal flag (unlike every other error in the handler), so the single
reply the client receives is not marked terminal. -/
theorem C8_counterexample :
    c8Final.outbox =
      [(0, { type := "Error", data := JSVal.str "Invalid request!", terminal := false })] ∧
    (∀ e ∈ c8Final.outbox, e.2.terminal = false) :=
  ⟨by decide, by decide⟩

/-- Claim C8, amended.  For every inbound message whose type is none of
Login, Register, Logout, Search, Cancel-Search, the handler replies with
exactly one Error message that is not marked terminal, does not close the
connection, and mutates no registry: the state is unchanged apart from the
appended reply. -/
theorem C8_unknown_message (st : MState) (pk : Nat) (m : InMsg) (ncode : Int)
    (h1 : m.type ≠ "Login") (h2 : m.type ≠ "Register") (h3 : m.type ≠ "Logout")
    (h4 : m.type ≠ "Search") (h5 : m.type ≠ "Cancel-Search") :
    handleMSG st pk m ncode =
      pushOut st pk { type := "Error", data := JSVal.str "Invalid request!",
                      terminal := false } ∧
    (handleMSG st pk m ncode).players = st.players ∧
    (handleMSG st pk m ncode).stalePlayers = st.stalePlayers ∧
    (handleMSG st pk m ncode).heap = st.heap ∧
    (handleMSG st pk m ncode).finders = st.finders ∧
    (handleMSG st pk m ncode).store = st.store := by
  have hh : handleMSG st pk m ncode =
      pushOut st pk { type := "Error", data := JSVal.str "Invalid request!",
                      terminal := false } := by
    unfold handleMSG
    dsimp only
    rw [if_neg h1, if_neg h2, if_neg h3, if_neg h4, if_neg h5]
  rw [hh]
  exact ⟨rfl, rfl, rfl, rfl, rfl, rfl⟩

/-- Witness for C8: the concrete unrecognized message draws the unflagged
error reply. -/
theorem C8_unknown_message_witness :
    handleMSG st0 0 c8Msg 0 =
      pushOut st0 0 { type := "Error", data := JSVal.str "Invalid request!",
                      terminal := false } :=
  (C8_unknown_message st0 0 c8Msg 0 (by decide) (by decide) (by decide) (by decide)
    (by decide)).1

theorem fireDisconnection_store (st : MState) (pk : Nat) (ex : Bool) :
    (fireDisconnection st pk ex).store = st.store := by
  unfold fireDisconnection
  cases mapGet st.heap pk with
  | none => rfl
  | some pl =>
    dsimp only
    by_cases ht : pl.terminated = true
    · rw [if_pos ht]
    · rw [if_neg ht]
      cases ex with
      | true => rw [if_pos rfl]
      | false =>
        rw [if_neg (by simp)]
        by_cases hdb : pl.dbRef ≠ ""
        · rw [if_pos hdb]
        · rw [if_neg hdb]

theorem fireDisconnection_stale_sub (st : MState) (pk : Nat) (k : String) (pid : Nat)
    (h : mapGet (fireDisconnection st pk true).stalePlayers k = some pid) :
    mapGet st.stalePlayers k = some pid := by
  unfold fireDisconnection at h
  cases hg : mapGet st.heap pk with
  | none =>
    rw [hg] at h
    exact h
  | some pl =>
    rw [hg] at h
    dsimp only at h
    by_cases ht : pl.terminated = true
    · rw [if_pos ht] at h
      exact h
    · rw [if_neg ht, if_pos rfl] at h
      dsimp only at h
      by_cases hkk : k = pl.dbRef
      · rw [hkk, mapGet_mapDelete_self] at h
        exact Option.noConfusion h
      · rw [mapGet_mapDelete_ne _ _ _ hkk] at h
        exact h

/-- Claim C9.  On Logout from a player with directory key dbRef the handler
first merges the invalidated session marker into the document at
users/<dbRef>, leaving every other field of that document and every other
document unchanged, and only then fires an explicit disconnection, which
creates no stale-registry entry. -/
theorem C9_logout (st : MState) (pk : Nat) (data : MsgData) (ncode : Int) (pl : Player)
    (doc : UserDoc) (hg : mapGet st.heap pk = some pl)
    (hdoc : usersGet st.store pl.dbRef = some doc) :
    handleMSG st pk { type := "Logout", data := data } ncode =
      fireDisconnection { st with store := usersUpdateSession st.store pl.dbRef "null|0" }
        pk true ∧
    usersGet (handleMSG st pk { type := "Logout", data := data } ncode).store pl.dbRef =
      some { doc with session := some "null|0" } ∧
    (∀ k, k ≠ pl.dbRef →
      usersGet (handleMSG st pk { type := "Logout", data := data } ncode).store k =
        usersGet st.store k) ∧
    (∀ k pid,
      mapGet (handleMSG st pk { type := "Logout", data := data } ncode).stalePlayers k =
        some pid → mapGet st.stalePlayers k = some pid) := by
  have hh : handleMSG st pk { type := "Logout", data := data } ncode =
      fireDisconnection { st with store := usersUpdateSession st.store pl.dbRef "null|0" }
        pk true := by
    unfold handleMSG
    dsimp only
    rw [if_neg (by decide), if_neg (by decide), if_pos rfl, hg]
  have hstore : (handleMSG st pk { type := "Logout", data := data } ncode).store =
      usersUpdateSession st.store pl.dbRef "null|0" := by
    rw [hh, fireDisconnection_store]
  refine ⟨hh, ?_, ?_, ?_⟩
  · rw [hstore]
    unfold usersGet usersUpdateSession
    dsimp only
    rw [mapGet_mapModify_self]
    unfold usersGet at hdoc
    rw [hdoc]
    rfl
  · intro k hk
    rw [hstore]
    unfold usersGet usersUpdateSession
    dsimp only
    exact mapGet_mapModify_ne _ _ _ _ hk
  · intro k pid hkp
    rw [hh] at hkp
    have := fireDisconnection_stale_sub _ pk k pid hkp
    exact this

/-- Witness for C9: the concrete logged-in account's document gains the
invalidated session marker with all other fields intact. -/
theorem C9_logout_witness :
    usersGet (handleMSG stC9 0 { type := "Logout", data := blankData } 0).store exKey =
      some { exDoc with session := some "null|0" } :=
  (C9_logout stC9 0 blankData 0 authedPl exDoc (by decide) (by decide)).2.1

/-- Claim C10.  The registration gate compares the stored value and the
payload's access field with JavaScript loose equality: when the store holds
no code (so the lookup yields null), a null or undefined access field passes
the gate and the request proceeds to field validation rather than drawing
the invalid-access-code error; and a string access code whose numeric value
equals the stored number passes the gate as well. -/
theorem C10_access_gate (st : MState) (pk : Nat) (data : MsgData) (ncode : Int) :
    (st.store.regAccessCode = none →
      (data.access = JSVal.null ∨ data.access = JSVal.undef) →
      looseEq (regAccessVal st.store) data.access = true) ∧
    (st.store.regAccessCode = none → data.access = JSVal.null → data.name = JSVal.null →
      handleMSG st pk { type := "Register", data := data } ncode =
        pushOut st pk { type := "Error", data := JSVal.str "Invalid or Malformed request.",
                        terminal := true }) ∧
    (∀ n s, st.store.regAccessCode = some n → data.access = JSVal.str s →
      jsToNumberInt s = some n → looseEq (regAccessVal st.store) data.access = true) := by
  refine ⟨?_, ?_, ?_⟩
  · intro hnone hacc
    have hv : regAccessVal st.store = JSVal.null := by
      unfold regAccessVal
      rw [hnone]
    rcases hacc with h | h <;> rw [hv, h] <;> rfl
  · intro hnone hacc hname
    have hv : regAccessVal st.store = JSVal.null := by
      unfold regAccessVal
      rw [hnone]
    have hro : registerOutcome st.store data = RegOutcome.malformed := by
      unfold registerOutcome
      rw [hv, hacc, hname]
      rw [if_pos (show looseEq JSVal.null JSVal.null = true by rfl)]
    unfold handleMSG
    dsimp only
    rw [if_neg (by decide), if_pos rfl, hro]
  · intro n s hsome hacc hnum
    have hv : regAccessVal st.store = JSVal.num n := by
      unfold regAccessVal
      rw [hsome]
    rw [hv, hacc]
    unfold looseEq
    dsimp only
    rw [hnum]
    simp

/-- Witness for C10: with no stored code a null access field reaches field
validation, and the live numeric code is matched by its string rendering. -/
theorem C10_access_gate_witness :
    handleMSG stNoCode 0 { type := "Register", data := c10Data } 0 =
      pushOut stNoCode 0 { type := "Error", data := JSVal.str "Invalid or Malformed request.",
                           terminal := true } ∧
    looseEq (regAccessVal st0.store) c10bData.access = true :=
  ⟨(C10_access_gate stNoCode 0 c10Data 0).2.1 rfl rfl rfl,
   (C10_access_gate st0 0 c10bData 0).2.2 111111 "111111" rfl rfl (by decide)⟩

end GameServer
